import Mathlib

/-!
A shallow embedding of the QEMU VDI block driver (`block/vdi.c`) and proofs
about it.  The driver exposes a sparse virtual disk stored in one host file:
a little-endian header, a block map of `u32` entries, and a data region of
1 MiB blocks allocated on first write.

Modelling conventions:
* All I/O in the driver is sector-granular (512-byte units), so the host file
  is modelled as a map from sector index to an algebraic `Sector` value.
  `Sector.raw d` stands for an arbitrary 512-byte payload `d`, `Sector.zero`
  for the all-zero sector produced by `memset`/`qemu_mallocz`,
  `Sector.mapSec es` for a 512-byte slice of the block map holding the 128
  little-endian entries `es`, and `Sector.hdr h` for the little-endian
  encoding of header `h` (distinct constructors denote distinct byte
  contents).
* Machine integers are `Nat`.  The byte-order conversions `le32_to_cpus` /
  `cpu_to_le32s` are one and the same operation (identity on a little-endian
  host, a byte swap on a big-endian one); the model threads them as explicit
  parameters `b32`/`b64`, and theorems that need them assume they are
  involutive, which both instantiations satisfy.
* `bdrv_read` / `bdrv_write` may fail; the host carries failure oracles
  `readFails` / `writeFails` consulted exactly where the C checks the return
  value of `bdrv_read` / `bdrv_write`.
* The C `while` loops of `vdi_read` / `vdi_write` are translated as
  structurally recursive functions on a fuel argument.  Each iteration of the
  C loop advances by `n_sectors ≥ 1` sectors (when `block_sectors > 0`), so
  fuel `nb_sectors + 1` always suffices; running out of fuel returns the
  error value and is unreachable under that precondition.
-/

namespace Vdi

/-- `SECTOR_SIZE` from block/vdi.c: all I/O is in 512-byte sectors. -/
def SECTOR_SIZE : Nat := 512

def KiB : Nat := 1024

def MiB : Nat := KiB * KiB

/-- Image signature `VDI_SIGNATURE 0xbeda107f`. -/
def VDI_SIGNATURE : Nat := 0xbeda107f

/-- Image version `VDI_VERSION_1_1 0x00010001`. -/
def VDI_VERSION_1_1 : Nat := 0x00010001

def VDI_TYPE_DYNAMIC : Nat := 1

def VDI_TYPE_STATIC : Nat := 2

/-- `VDI_UNALLOCATED UINT32_MAX`: sentinel entry for an unallocated block. -/
def VDI_UNALLOCATED : Nat := 0xffffffff

/-- The semantic fields of `VdiHeader` (block/vdi.c lines 150-175).  The
`text` (64 B), `description` (256 B), four 16-byte UUIDs and the trailing
`unused2[7]` padding carry no semantics consulted by the driver; they appear
only in the byte-level encoding `vdi_create_header_bytes` below. -/
structure VdiHeader where
  signature : Nat
  version : Nat
  header_size : Nat
  image_type : Nat
  image_flags : Nat
  offset_blockmap : Nat
  offset_data : Nat
  cylinders : Nat
  heads : Nat
  sectors : Nat
  sector_size : Nat
  unused1 : Nat
  disk_size : Nat
  block_size : Nat
  block_extra : Nat
  blocks_in_image : Nat
  blocks_allocated : Nat
  deriving Repr, DecidableEq

/-- A 512-byte sector value, algebraically.  Distinct constructors denote
distinct byte contents; `zero` is the all-zero sector. -/
inductive Sector where
  | raw (d : Nat)
  | zero
  | mapSec (entries : List Nat)
  | hdr (h : VdiHeader)
  deriving Repr, DecidableEq

/-- The host file collaborator: file contents by sector index, plus failure
oracles for `bdrv_read`/`bdrv_write` (offset and sector count). -/
structure Host where
  file : Nat → Sector
  writeFails : Nat → Nat → Bool
  readFails : Nat → Nat → Bool

/-- Effect of a successful `bdrv_write(hd, offset, buf, buf.length)`. -/
def bdrv_write_ok (h : Host) (offset : Nat) (buf : List Sector) : Host :=
  { h with file := fun o =>
      if offset ≤ o ∧ o < offset + buf.length then buf.getD (o - offset) Sector.zero
      else h.file o }

/-- Result of a successful `bdrv_read(hd, offset, buf, count)`. -/
def bdrv_read_val (h : Host) (offset count : Nat) : List Sector :=
  (List.range count).map (fun i => h.file (offset + i))

/-- `BDRVVdiState` (block/vdi.c lines 177-186): the in-memory block map
(entries kept in little-endian byte form, i.e. with `b32` applied to the
host-order value), the block size in bytes and in sectors, and the header
(kept in host byte order). -/
structure BDRVVdiState where
  blockmap : List Nat
  block_size : Nat
  block_sectors : Nat
  header : VdiHeader
  deriving Repr, DecidableEq

/-- `vdi_header_to_cpu` / `vdi_header_to_le` (lines 188-226) both apply the
same per-field byte-order conversion; `b32` converts the `u32` fields and
`b64` the `u64` field `disk_size`.  `unused1` is not converted by the C
code and is left unchanged here as well. -/
def vdi_header_conv (b32 b64 : Nat → Nat) (h : VdiHeader) : VdiHeader :=
  { h with
    signature := b32 h.signature
    version := b32 h.version
    header_size := b32 h.header_size
    image_type := b32 h.image_type
    image_flags := b32 h.image_flags
    offset_blockmap := b32 h.offset_blockmap
    offset_data := b32 h.offset_data
    cylinders := b32 h.cylinders
    heads := b32 h.heads
    sectors := b32 h.sectors
    sector_size := b32 h.sector_size
    disk_size := b64 h.disk_size
    block_size := b32 h.block_size
    block_extra := b32 h.block_extra
    blocks_in_image := b32 h.blocks_in_image
    blocks_allocated := b32 h.blocks_allocated }

/-- `vdi_header_to_cpu` (lines 188-206). -/
def vdi_header_to_cpu (b32 b64 : Nat → Nat) (h : VdiHeader) : VdiHeader :=
  vdi_header_conv b32 b64 h

/-- `vdi_header_to_le` (lines 208-226). -/
def vdi_header_to_le (b32 b64 : Nat → Nat) (h : VdiHeader) : VdiHeader :=
  vdi_header_conv b32 b64 h

/-- Little-endian `u32` read of 4 bytes of `buf` at byte offset `off`
(`le32_to_cpu` applied to memory, which is host-independent). -/
def le32_at (buf : List Nat) (off : Nat) : Nat :=
  buf.getD off 0 + 256 * buf.getD (off + 1) 0 + 65536 * buf.getD (off + 2) 0 +
    16777216 * buf.getD (off + 3) 0

/-- `sizeof(VdiHeader)`: 64 (text) + 5·4 + 256 (description) + 7·4 + 8 +
4·4 + 4·16 (uuids) + 7·8 (unused2) = 512 bytes.  The `signature` field
starts at byte offset 64 (after `text`) and `version` at 68. -/
def sizeof_VdiHeader : Nat := 512

/-- `vdi_probe` (lines 305-325) on a candidate buffer `buf` (whose length is
the probe's `buf_size`): result 0, overwritten with 100 only when the buffer
is at least `sizeof(VdiHeader)` and the little-endian `signature` field
matches `VDI_SIGNATURE`.  No other field (in particular not `version`) is
examined. -/
def vdi_probe (buf : List Nat) : Nat :=
  if buf.length < sizeof_VdiHeader then 0
  else if le32_at buf 64 = VDI_SIGNATURE then 100
  else 0

/-- The header validation of `vdi_open` (lines 359-381): each failing test is
a `goto fail`, which returns -1 after `bdrv_delete`, so `false` means the
image is rejected and unusable.  Note the chain starts at `version`; the
`signature` field is never tested by `vdi_open`. -/
def vdi_open_hdr_ok (header : VdiHeader) : Bool :=
  if header.version ≠ VDI_VERSION_1_1 then false
  else if header.offset_blockmap % SECTOR_SIZE ≠ 0 then false
  else if header.offset_data % SECTOR_SIZE ≠ 0 then false
  else if header.sector_size ≠ SECTOR_SIZE then false
  else if header.block_size ≠ 1 * MiB then false
  else if header.disk_size ≠ header.blocks_in_image * header.block_size then false
  else true

/-- `blocks = bytes / block_size` in `vdi_create` (line 925); `block_size`
is fixed at 1 MiB because `CONFIG_VDI_BLOCK_SIZE` is not defined. -/
def vdi_create_blocks (bytes : Nat) : Nat := bytes / (1 * MiB)

/-- `blockmap_size = ((blocks * 4 + SECTOR_SIZE - 1) & ~(SECTOR_SIZE - 1))`
(lines 926-927): the byte size of the block map rounded up to a whole number
of sectors (the mask form equals this rounding for the values involved). -/
def vdi_create_blockmap_size (bytes : Nat) : Nat :=
  (vdi_create_blocks bytes * 4 + SECTOR_SIZE - 1) / SECTOR_SIZE * SECTOR_SIZE

/-- The header built by `vdi_create` (lines 929-940): `memset` to zero, then
the listed fields assigned.  `blocks_allocated` is never assigned and stays
0 for both dynamic and static images; the only effect of the
`BLOCK_OPT_STATIC` option is `image_type` (lines 911-914). -/
def vdi_create_header (bytes : Nat) (isStatic : Bool) : VdiHeader :=
  { signature := VDI_SIGNATURE
    version := VDI_VERSION_1_1
    header_size := 0x180
    image_type := if isStatic then VDI_TYPE_STATIC else VDI_TYPE_DYNAMIC
    image_flags := 0
    offset_blockmap := 0x200
    offset_data := 0x200 + vdi_create_blockmap_size bytes
    cylinders := 0
    heads := 0
    sectors := 0
    sector_size := SECTOR_SIZE
    unused1 := 0
    disk_size := bytes
    block_size := 1 * MiB
    block_extra := 0
    blocks_in_image := vdi_create_blocks bytes
    blocks_allocated := 0 }

/-- The block map written by `vdi_create` (lines 955-959): a zeroed buffer of
`blockmap_size` bytes whose first `blocks` entries are set to
`VDI_UNALLOCATED`; the padding entries up to the sector boundary remain 0.
`vdi_create` writes nothing after this map: no data blocks are written even
for a static image (pre-allocation is a TODO, line 887). -/
def vdi_create_blockmap (bytes : Nat) : List Nat :=
  List.replicate (vdi_create_blocks bytes) VDI_UNALLOCATED ++
    List.replicate ((vdi_create_blockmap_size bytes - vdi_create_blocks bytes * 4) / 4) 0

/-- The 4 little-endian bytes of a `u32`. -/
def le4 (n : Nat) : List Nat :=
  [n % 256, n / 256 % 256, n / 65536 % 256, n / 16777216 % 256]

/-- The 8 little-endian bytes of a `u64`. -/
def le8 (n : Nat) : List Nat := le4 (n % 4294967296) ++ le4 (n / 4294967296 % 4294967296)

/-- The bytes of `VDI_TEXT "<<< QEMU VM Virtual Disk Image >>>\n"`. -/
def VDI_TEXT : List Nat := "<<< QEMU VM Virtual Disk Image >>>\n".toList.map Char.toNat

/-- The 512 header bytes written by `vdi_create` at offset 0
(`vdi_header_to_le(&header); write(fd, &header, sizeof(header))`):
`text` holds `VDI_TEXT` NUL-padded, `description` is zero, every scalar is
little-endian, the UUID fields stay zero (the build without `HAVE_UUID_H`;
they are opaque to the driver either way), and `unused2[7]` is zero. -/
def vdi_create_header_bytes (bytes : Nat) (isStatic : Bool) : List Nat :=
  let h := vdi_create_header bytes isStatic
  (VDI_TEXT ++ List.replicate (64 - VDI_TEXT.length) 0) ++
    (le4 h.signature ++ (le4 h.version ++ (le4 h.header_size ++ (le4 h.image_type ++
    (le4 h.image_flags ++ (List.replicate 256 0 ++ (le4 h.offset_blockmap ++
    (le4 h.offset_data ++ (le4 h.cylinders ++ (le4 h.heads ++ (le4 h.sectors ++
    (le4 h.sector_size ++ (le4 h.unused1 ++ (le8 h.disk_size ++ (le4 h.block_size ++
    (le4 h.block_extra ++ (le4 h.blocks_in_image ++ (le4 h.blocks_allocated ++
    (List.replicate 64 0 ++ List.replicate 56 0)))))))))))))))))))

/-- `le32_to_cpu(s->blockmap[i])`: the host-order value of entry `i`. -/
def mapEntry (b32 : Nat → Nat) (s : BDRVVdiState) (i : Nat) : Nat :=
  b32 (s.blockmap.getD i 0)

/-- `s->header.offset_data / SECTOR_SIZE`: first sector of the data region. -/
def dataSec (s : BDRVVdiState) : Nat := s.header.offset_data / SECTOR_SIZE

/-- `s->header.offset_blockmap / SECTOR_SIZE`: first sector of the on-disk
block map. -/
def mapSecStart (s : BDRVVdiState) : Nat := s.header.offset_blockmap / SECTOR_SIZE

/-- The number of whole blocks covered by `len` sectors starting at
in-block offset `sib`: `⌈(sib + len) / bsec⌉`. -/
def blockSpan (bsec sib len : Nat) : Nat := (sib + len + bsec - 1) / bsec

/-- The number of block indices that can be reached by sectors below
`total`: `⌈total / bsec⌉`. -/
def blockCap (total bsec : Nat) : Nat := (total + bsec - 1) / bsec

/-- The sector a logical sector denotes through the two-level lookup of
`vdi_read` (lines 789-801): the zero sector if the block's map entry is the
sentinel, otherwise the host-file sector at
`offset_data/512 + entry·block_sectors + sector_in_block`. -/
def readSector (b32 : Nat → Nat) (host : Host) (s : BDRVVdiState) (i : Nat) : Sector :=
  let e := mapEntry b32 s (i / s.block_sectors)
  if e = VDI_UNALLOCATED then Sector.zero
  else host.file (dataSec s + e * s.block_sectors + i % s.block_sectors)

/-- The loop of `vdi_read` (lines 781-805), with `acc` the part of `dst`
filled so far.  `none` models the -1 return on a failed `bdrv_read` (and the
unreachable fuel exhaustion); on normal termination the sectors filled into
`dst` are returned (sectors past `total` are not filled; the C leaves that
part of the caller's buffer untouched). -/
def vdi_read_loop (b32 : Nat → Nat) (total : Nat) :
    Nat → Host → BDRVVdiState → Nat → Nat → List Sector → Option (List Sector)
  | 0, _, _, _, _, _ => none
  | fuel + 1, host, s, sector_num, nb_sectors, acc =>
    if nb_sectors = 0 ∨ total ≤ sector_num then some acc
    else
      let block_index := sector_num / s.block_sectors
      let sector_in_block := sector_num % s.block_sectors
      let n_sectors := min (s.block_sectors - sector_in_block) nb_sectors
      let blockmap_entry := b32 (s.blockmap.getD block_index 0)
      if blockmap_entry = VDI_UNALLOCATED then
        vdi_read_loop b32 total fuel host s (sector_num + n_sectors)
          (nb_sectors - n_sectors) (acc ++ List.replicate n_sectors Sector.zero)
      else
        let offset := s.header.offset_data / SECTOR_SIZE +
          blockmap_entry * s.block_sectors + sector_in_block
        if host.readFails offset n_sectors then none
        else
          vdi_read_loop b32 total fuel host s (sector_num + n_sectors)
            (nb_sectors - n_sectors) (acc ++ bdrv_read_val host offset n_sectors)

/-- `vdi_read` (lines 772-807): reject negative `sector_num`, then run the
per-block loop. -/
def vdi_read (b32 : Nat → Nat) (total : Nat) (host : Host) (s : BDRVVdiState)
    (sector_num : Int) (nb_sectors : Nat) : Option (List Sector) :=
  if sector_num < 0 then none
  else vdi_read_loop b32 total (nb_sectors + 1) host s sector_num.toNat nb_sectors []

/-- The header rewrite step of `vdi_write` (lines 857-864): convert the
in-memory header to little-endian in place, write it as sector 0, and
convert it back to host order on both the failure path and the success
path. -/
def vdi_write_header_step (b32 b64 : Nat → Nat) (host : Host) (h : VdiHeader) :
    Host × VdiHeader × Int :=
  let hle := vdi_header_to_le b32 b64 h
  if host.writeFails 0 1 then (host, vdi_header_to_cpu b32 b64 hle, -1)
  else (bdrv_write_ok host 0 [Sector.hdr hle], vdi_header_to_cpu b32 b64 hle, 0)

/-- The full block written by the allocation path (lines 837-839):
`block = qemu_mallocz(s->block_size)` followed by
`memcpy(block + sector_in_block * SECTOR_SIZE, buf, n_sectors * SECTOR_SIZE)`,
i.e. `sector_in_block` zero sectors, then the first `n_sectors` sectors of
the caller's buffer, then zero sectors up to `block_sectors`. -/
def vdi_alloc_block (bsec sib n : Nat) (buf : List Sector) : List Sector :=
  List.replicate sib Sector.zero ++ buf.take n ++ List.replicate (bsec - sib - n) Sector.zero

/-- The 512 bytes at `(uint8_t *)&s->blockmap[bm_entry]`: one sector's worth
(128 entries) of the in-memory block map starting at entry `bm_entry`. -/
def vdi_map_sector (blockmap : List Nat) (bm_entry : Nat) : Sector :=
  Sector.mapSec ((blockmap.drop bm_entry).take (SECTOR_SIZE / 4))

/-- The loop of `vdi_write` (lines 819-878).  The result is the host file,
the driver state, and the C return value.  In the allocation branch the
sequence is exactly the source's: reserve `k = blocks_allocated`, set the map
entry and bump the counter in memory, write the zero-filled block with the
caller's sectors copied in, then write one sector of the block map — at the
entry index `k & ~127` taken from the (reused) variable holding `k`, not from
`block_index` — then rewrite the header with the to-le/write/to-cpu step.
Each failed `bdrv_write` returns -1 right away, without reverting the
in-memory map entry or counter. -/
def vdi_write_loop (b32 b64 : Nat → Nat) (total : Nat) :
    Nat → Host → BDRVVdiState → Nat → List Sector → Host × BDRVVdiState × Int
  | 0, host, s, _, _ => (host, s, -1)
  | fuel + 1, host, s, sector_num, buf =>
    if buf.length = 0 ∨ total ≤ sector_num then (host, s, 0)
    else
      let block_index := sector_num / s.block_sectors
      let sector_in_block := sector_num % s.block_sectors
      let n_sectors := min (s.block_sectors - sector_in_block) buf.length
      let blockmap_entry := b32 (s.blockmap.getD block_index 0)
      if blockmap_entry = VDI_UNALLOCATED then
        let k := s.header.blocks_allocated
        let s1 : BDRVVdiState :=
          { s with blockmap := s.blockmap.set block_index (b32 k)
                   header := { s.header with blocks_allocated := s.header.blocks_allocated + 1 } }
        let offset := s1.header.offset_data / SECTOR_SIZE + k * s1.block_sectors
        let block := vdi_alloc_block s1.block_sectors sector_in_block n_sectors buf
        if host.writeFails offset block.length then (host, s1, -1)
        else
          let host1 := bdrv_write_ok host offset block
          -- blockmap_entry &= ~(SECTOR_SIZE / sizeof(uint32_t) - 1): the low
          -- 7 bits of the reused variable (holding k) are cleared, i.e. k is
          -- rounded down to a multiple of 128 entries.
          let bm_entry := k / (SECTOR_SIZE / 4) * (SECTOR_SIZE / 4)
          let offset2 := s1.header.offset_blockmap / SECTOR_SIZE + bm_entry / (SECTOR_SIZE / 4)
          if host1.writeFails offset2 1 then (host1, s1, -1)
          else
            let host2 := bdrv_write_ok host1 offset2 [vdi_map_sector s1.blockmap bm_entry]
            -- lines 857-864: vdi_header_to_le, write sector 0, vdi_header_to_cpu
            -- on both the failure path and the success path
            let hle := vdi_header_to_le b32 b64 s1.header
            if host2.writeFails 0 1 then
              (host2, { s1 with header := vdi_header_to_cpu b32 b64 hle }, -1)
            else
              vdi_write_loop b32 b64 total fuel (bdrv_write_ok host2 0 [Sector.hdr hle])
                { s1 with header := vdi_header_to_cpu b32 b64 hle }
                (sector_num + n_sectors) (buf.drop n_sectors)
      else
        let offset := s.header.offset_data / SECTOR_SIZE +
          blockmap_entry * s.block_sectors + sector_in_block
        if host.writeFails offset n_sectors then (host, s, -1)
        else
          vdi_write_loop b32 b64 total fuel (bdrv_write_ok host offset (buf.take n_sectors)) s
            (sector_num + n_sectors) (buf.drop n_sectors)

/-- `vdi_write` (lines 810-880): reject negative `sector_num`, then run the
per-block loop (`nb_sectors` is `buf.length`). -/
def vdi_write (b32 b64 : Nat → Nat) (total : Nat) (host : Host) (s : BDRVVdiState)
    (sector_num : Int) (buf : List Sector) : Host × BDRVVdiState × Int :=
  if sector_num < 0 then (host, s, -1)
  else vdi_write_loop b32 b64 total (buf.length + 1) host s sector_num.toNat buf

/-- A sequence of `vdi_write` requests against the same opener. -/
def vdi_write_seq (b32 b64 : Nat → Nat) (total : Nat) :
    List (Int × List Sector) → Host × BDRVVdiState → Host × BDRVVdiState
  | [], p => p
  | (sn, buf) :: rest, (host, s) =>
    let r := vdi_write b32 b64 total host s sn buf
    vdi_write_seq b32 b64 total rest (r.1, r.2.1)

/-- The number of block-map entries that are not the `VDI_UNALLOCATED`
sentinel (what `vdi_check`, lines 262-274, counts). -/
def countAlloc (b32 : Nat → Nat) : List Nat → Nat
  | [] => 0
  | e :: r => (if b32 e = VDI_UNALLOCATED then 0 else 1) + countAlloc b32 r

/-! ### Concrete instances used in counterexamples and example runs -/

/-- A 512-byte candidate buffer whose signature field is `VDI_SIGNATURE` but
whose version field is 0. -/
def probeBufBadVersion : List Nat :=
  List.replicate 64 0 ++ le4 VDI_SIGNATURE ++ le4 0 ++ List.replicate 440 0

/-- A header that passes every test `vdi_open` performs although its
signature field is 0, not `VDI_SIGNATURE`. -/
def hdrBadSig : VdiHeader :=
  { signature := 0, version := VDI_VERSION_1_1, header_size := 0x180,
    image_type := VDI_TYPE_DYNAMIC, image_flags := 0, offset_blockmap := 0x200,
    offset_data := 0x400, cylinders := 0, heads := 0, sectors := 0,
    sector_size := SECTOR_SIZE, unused1 := 0, disk_size := 1 * MiB,
    block_size := 1 * MiB, block_extra := 0, blocks_in_image := 1,
    blocks_allocated := 0 }

/-- The header of a freshly created dynamic 256 MiB image: 256 block-map
entries in file sectors 1-2, data region from file sector 3. -/
def hdr256 : VdiHeader :=
  { signature := VDI_SIGNATURE, version := VDI_VERSION_1_1, header_size := 0x180,
    image_type := VDI_TYPE_DYNAMIC, image_flags := 0, offset_blockmap := 0x200,
    offset_data := 0x600, cylinders := 0, heads := 0, sectors := 0,
    sector_size := SECTOR_SIZE, unused1 := 0, disk_size := 256 * MiB,
    block_size := 1 * MiB, block_extra := 0, blocks_in_image := 256,
    blocks_allocated := 0 }

/-- The opened state of that image: every block still unallocated. -/
def state256 : BDRVVdiState :=
  { blockmap := List.replicate 256 VDI_UNALLOCATED, block_size := 1 * MiB,
    block_sectors := 2048, header := hdr256 }

/-- A host file whose every sector reads as `raw 99`; no I/O fails. -/
def host99 : Host :=
  { file := fun _ => Sector.raw 99, writeFails := fun _ _ => false,
    readFails := fun _ _ => false }

/-- Same file contents, but every write at file sector 3 or beyond — the
whole data region of `state256` — fails. -/
def hostDataWriteFails : Host :=
  { file := fun _ => Sector.raw 99, writeFails := fun o _ => decide (3 ≤ o),
    readFails := fun _ _ => false }

/-- Same file contents, but every read fails. -/
def hostAllReadsFail : Host :=
  { file := fun _ => Sector.raw 99, writeFails := fun _ _ => false,
    readFails := fun _ _ => true }

/-- A miniature opened image used for the write-then-read example: two
blocks of two sectors each (model-level state; the block map starts at file
sector 1, the data region at file sector 2). -/
def hdrMini : VdiHeader :=
  { signature := VDI_SIGNATURE, version := VDI_VERSION_1_1, header_size := 0x180,
    image_type := VDI_TYPE_DYNAMIC, image_flags := 0, offset_blockmap := 0x200,
    offset_data := 0x400, cylinders := 0, heads := 0, sectors := 0,
    sector_size := SECTOR_SIZE, unused1 := 0, disk_size := 2048,
    block_size := 1024, block_extra := 0, blocks_in_image := 2,
    blocks_allocated := 0 }

/-- The opened miniature state. -/
def stateMini : BDRVVdiState :=
  { blockmap := [VDI_UNALLOCATED, VDI_UNALLOCATED], block_size := 1024,
    block_sectors := 2, header := hdrMini }

/-- An all-`raw 0` host file; no I/O fails. -/
def hostZero : Host :=
  { file := fun _ => Sector.raw 0, writeFails := fun _ _ => false,
    readFails := fun _ _ => false }

/-! ### Arithmetic helper lemmas -/

theorem div_mod_add (b a j : Nat) (hb : 0 < b) (hj : j < b - a % b) :
    (a + j) / b = a / b ∧ (a + j) % b = a % b + j := by
  have hq := Nat.div_add_mod a b
  have hr : a % b < b := Nat.mod_lt a hb
  have h1 : a + j = b * (a / b) + (a % b + j) := by omega
  constructor
  · rw [h1, Nat.mul_add_div hb]
    have h2 : (a % b + j) / b = 0 := Nat.div_eq_of_lt (by omega)
    omega
  · rw [h1, Nat.mul_add_mod]
    exact Nat.mod_eq_of_lt (by omega)

theorem mod_next_block (b a : Nat) (hb : 0 < b) :
    (a + (b - a % b)) % b = 0 ∧ (a + (b - a % b)) / b = a / b + 1 := by
  have hq := Nat.div_add_mod a b
  have hr : a % b < b := Nat.mod_lt a hb
  have h1 : a + (b - a % b) = b * (a / b + 1) := by
    rw [Nat.mul_succ]; omega
  rw [h1]
  exact ⟨Nat.mul_mod_right b _, Nat.mul_div_cancel_left _ hb⟩

theorem region_unique {d b o p q : Nat} (hp1 : d + p * b ≤ o) (hp2 : o < d + (p + 1) * b)
    (hq1 : d + q * b ≤ o) (hq2 : o < d + (q + 1) * b) : p = q := by
  by_contra hne
  rcases Nat.lt_or_ge p q with h | h
  · have h2 : (p + 1) * b ≤ q * b := Nat.mul_le_mul_right b h
    omega
  · have h' : q + 1 ≤ p := by omega
    have h2 : (q + 1) * b ≤ p * b := Nat.mul_le_mul_right b h'
    omega

theorem blockSpan_pos {b len : Nat} (hb : 0 < b) (hlen : 0 < len) (sib : Nat) :
    1 ≤ blockSpan b sib len := by
  rw [blockSpan, Nat.le_div_iff_mul_le hb]
  omega

theorem blockSpan_step {b sib len : Nat} (hb : 0 < b) (hsib : sib < b) (hlen : b - sib < len) :
    blockSpan b 0 (len - (b - sib)) + 1 = blockSpan b sib len := by
  rw [blockSpan, blockSpan]
  have h1 : sib + len + b - 1 = (0 + (len - (b - sib)) + b - 1) + b := by omega
  rw [h1, Nat.add_div_right _ hb]

theorem blockSpan_last {b sib len : Nat} (hb : 0 < b) (hsib : sib < b) (hlen : len ≤ b - sib) :
    blockSpan b sib len ≤ 1 := by
  rw [blockSpan, Nat.div_le_iff_le_mul_add_pred hb]
  omega

/-! ### List helper lemmas -/

theorem getD_set_self {α : Type} (l : List α) (i : Nat) (v d : α) (h : i < l.length) :
    (l.set i v).getD i d = v := by
  rw [List.getD_eq_getElem?_getD, List.getElem?_set_self h]
  rfl

theorem getD_set_ne {α : Type} (l : List α) {i j : Nat} (v d : α) (h : i ≠ j) :
    (l.set i v).getD j d = l.getD j d := by
  rw [List.getD_eq_getElem?_getD, List.getElem?_set_ne h, ← List.getD_eq_getElem?_getD]

theorem getD_drop {α : Type} (l : List α) (n i : Nat) (d : α) :
    (l.drop n).getD i d = l.getD (n + i) d := by
  rw [List.getD_eq_getElem?_getD, List.getElem?_drop, ← List.getD_eq_getElem?_getD]

theorem getD_take {α : Type} (l : List α) {n i : Nat} (d : α) (h : i < n) :
    (l.take n).getD i d = l.getD i d := by
  rw [List.getD_eq_getElem?_getD, List.getElem?_take, if_pos h, ← List.getD_eq_getElem?_getD]

theorem countAlloc_set (b32 : Nat → Nat) :
    ∀ (l : List Nat) (i v : Nat), i < l.length →
      countAlloc b32 (l.set i v) + (if b32 (l.getD i 0) = VDI_UNALLOCATED then 0 else 1)
        = countAlloc b32 l + (if b32 v = VDI_UNALLOCATED then 0 else 1) := by
  intro l
  induction l with
  | nil => intro i v h; simp at h
  | cons e r ih =>
    intro i v h
    cases i with
    | zero => simp only [List.set, countAlloc, List.getD_cons_zero]; omega
    | succ i' =>
      have h' : i' < r.length := by simpa using h
      have := ih i' v h'
      simp only [List.set, countAlloc, List.getD_cons_succ]
      omega

/-! ### Header conversion and host-write lemmas -/

theorem vdi_header_conv_conv (b32 b64 : Nat → Nat) (h32 : ∀ x, b32 (b32 x) = x)
    (h64 : ∀ x, b64 (b64 x) = x) (h : VdiHeader) :
    vdi_header_conv b32 b64 (vdi_header_conv b32 b64 h) = h := by
  cases h
  simp [vdi_header_conv, h32, h64]

theorem vdi_header_cpu_le (b32 b64 : Nat → Nat) (h32 : ∀ x, b32 (b32 x) = x)
    (h64 : ∀ x, b64 (b64 x) = x) (h : VdiHeader) :
    vdi_header_to_cpu b32 b64 (vdi_header_to_le b32 b64 h) = h :=
  vdi_header_conv_conv b32 b64 h32 h64 h

theorem bdrv_write_ok_file (h : Host) (offset : Nat) (buf : List Sector) (o : Nat) :
    (bdrv_write_ok h offset buf).file o =
      if offset ≤ o ∧ o < offset + buf.length then buf.getD (o - offset) Sector.zero
      else h.file o := rfl

theorem bdrv_write_ok_file_out {h : Host} {offset : Nat} {buf : List Sector} {o : Nat}
    (hout : o < offset ∨ offset + buf.length ≤ o) :
    (bdrv_write_ok h offset buf).file o = h.file o := by
  rw [bdrv_write_ok_file, if_neg]
  omega

theorem bdrv_write_ok_readFails (h : Host) (offset : Nat) (buf : List Sector) :
    (bdrv_write_ok h offset buf).readFails = h.readFails := rfl

theorem bdrv_write_ok_writeFails (h : Host) (offset : Nat) (buf : List Sector) :
    (bdrv_write_ok h offset buf).writeFails = h.writeFails := rfl

/-! ### Shape lemmas about the write loop -/

theorem vdi_write_loop_nil (b32 b64 : Nat → Nat) (total : Nat) :
    ∀ (fuel : Nat) (host : Host) (s : BDRVVdiState) (sn : Nat),
      (vdi_write_loop b32 b64 total fuel host s sn []).1 = host ∧
        (vdi_write_loop b32 b64 total fuel host s sn []).2.1 = s := by
  intro fuel host s sn
  cases fuel with
  | zero => exact ⟨rfl, rfl⟩
  | succ n => simp [vdi_write_loop]

theorem vdi_write_loop_shape (b32 b64 : Nat → Nat) (total : Nat) :
    ∀ (fuel : Nat) (host : Host) (s : BDRVVdiState) (sn : Nat) (buf : List Sector),
      (vdi_write_loop b32 b64 total fuel host s sn buf).2.1.block_sectors = s.block_sectors ∧
      (vdi_write_loop b32 b64 total fuel host s sn buf).2.1.blockmap.length = s.blockmap.length ∧
      (vdi_write_loop b32 b64 total fuel host s sn buf).1.readFails = host.readFails ∧
      (vdi_write_loop b32 b64 total fuel host s sn buf).1.writeFails = host.writeFails := by
  intro fuel
  induction fuel with
  | zero => intro host s sn buf; exact ⟨rfl, rfl, rfl, rfl⟩
  | succ n ih =>
    intro host s sn buf
    simp only [vdi_write_loop]
    split_ifs with h1 h2 h3 h4 h5 h6
    · exact ⟨rfl, rfl, rfl, rfl⟩
    · refine ⟨rfl, ?_, rfl, rfl⟩; simp
    · refine ⟨rfl, ?_, rfl, rfl⟩; simp
    · refine ⟨rfl, ?_, rfl, rfl⟩; simp
    · refine ⟨(ih _ _ _ _).1.trans ?_, (ih _ _ _ _).2.1.trans ?_,
        (ih _ _ _ _).2.2.1.trans ?_, (ih _ _ _ _).2.2.2.trans ?_⟩ <;>
        first
        | rfl
        | simp
    · exact ⟨rfl, rfl, rfl, rfl⟩
    · exact ⟨(ih _ _ _ _).1, (ih _ _ _ _).2.1, (ih _ _ _ _).2.2.1, (ih _ _ _ _).2.2.2⟩

theorem vdi_write_loop_ba_mono (b32 b64 : Nat → Nat) (h32 : ∀ x, b32 (b32 x) = x)
    (h64 : ∀ x, b64 (b64 x) = x) (total : Nat) :
    ∀ (fuel : Nat) (host : Host) (s : BDRVVdiState) (sn : Nat) (buf : List Sector),
      s.header.blocks_allocated ≤
        (vdi_write_loop b32 b64 total fuel host s sn buf).2.1.header.blocks_allocated := by
  intro fuel
  induction fuel with
  | zero => intro host s sn buf; exact le_refl _
  | succ n ih =>
    intro host s sn buf
    simp only [vdi_write_loop]
    split_ifs with h1 h2 h3 h4 h5 h6
    · exact le_refl _
    · exact Nat.le_succ _
    · exact Nat.le_succ _
    · rw [vdi_header_cpu_le b32 b64 h32 h64]; exact Nat.le_succ _
    · rw [vdi_header_cpu_le b32 b64 h32 h64]
      refine le_trans ?_ (ih _ _ _ _)
      exact Nat.le_succ _
    · exact le_refl _
    · exact ih _ _ _ _

theorem vdi_write_loop_map_lo (b32 b64 : Nat → Nat) (total : Nat) :
    ∀ (fuel : Nat) (host : Host) (s : BDRVVdiState) (sn : Nat) (buf : List Sector) (i : Nat),
      i < sn / s.block_sectors →
      (vdi_write_loop b32 b64 total fuel host s sn buf).2.1.blockmap.getD i 0 =
        s.blockmap.getD i 0 := by
  intro fuel
  induction fuel with
  | zero => intro host s sn buf i hi; rfl
  | succ n ih =>
    intro host s sn buf i hi
    have hne : sn / s.block_sectors ≠ i := by omega
    simp only [vdi_write_loop]
    split_ifs with h1 h2 h3 h4 h5 h6
    · rfl
    · exact getD_set_ne _ _ _ hne
    · exact getD_set_ne _ _ _ hne
    · exact getD_set_ne _ _ _ hne
    · refine (ih _ _ _ _ i ?_).trans (getD_set_ne _ _ _ hne)
      exact lt_of_lt_of_le hi (Nat.div_le_div_right (Nat.le_add_right _ _))
    · rfl
    · refine ih _ _ _ _ i ?_
      exact lt_of_lt_of_le hi (Nat.div_le_div_right (Nat.le_add_right _ _))

theorem vdi_write_loop_header (b32 b64 : Nat → Nat) (h32 : ∀ x, b32 (b32 x) = x)
    (h64 : ∀ x, b64 (b64 x) = x) (total : Nat) :
    ∀ (fuel : Nat) (host : Host) (s : BDRVVdiState) (sn : Nat) (buf : List Sector),
      (vdi_write_loop b32 b64 total fuel host s sn buf).2.1.header =
        { s.header with blocks_allocated :=
            (vdi_write_loop b32 b64 total fuel host s sn buf).2.1.header.blocks_allocated } := by
  intro fuel
  induction fuel with
  | zero => intro host s sn buf; rfl
  | succ n ih =>
    intro host s sn buf
    simp only [vdi_write_loop]
    split_ifs with h1 h2 h3 h4 h5 h6
    · rfl
    · rfl
    · rfl
    · rw [vdi_header_cpu_le b32 b64 h32 h64]
    · rw [vdi_header_cpu_le b32 b64 h32 h64]; exact ih _ _ _ _
    · rfl
    · exact ih _ _ _ _

theorem vdi_write_loop_nil_eq (b32 b64 : Nat → Nat) (total : Nat) :
    ∀ (fuel : Nat) (host : Host) (s : BDRVVdiState) (sn : Nat),
      vdi_write_loop b32 b64 total fuel host s sn []
        = (host, s, if fuel = 0 then (-1 : Int) else 0) := by
  intro fuel host s sn
  cases fuel with
  | zero => simp [vdi_write_loop]
  | succ n => simp [vdi_write_loop]

/-- Each allocation of the write loop flips exactly one sentinel entry to a
non-sentinel value and bumps `blocks_allocated` by one, so the difference
between `blocks_allocated` and the number of non-sentinel entries is
invariant — on every path, including the failing ones. -/
theorem vdi_write_loop_count (b32 b64 : Nat → Nat) (h32 : ∀ x, b32 (b32 x) = x)
    (h64 : ∀ x, b64 (b64 x) = x) (total : Nat) :
    ∀ (fuel : Nat) (host : Host) (s : BDRVVdiState) (sn : Nat) (buf : List Sector)
      (host' : Host) (s' : BDRVVdiState) (ret : Int),
      vdi_write_loop b32 b64 total fuel host s sn buf = (host', s', ret) →
      0 < s.block_sectors →
      total ≤ s.blockmap.length * s.block_sectors →
      s.header.blocks_allocated + blockSpan s.block_sectors (sn % s.block_sectors) buf.length
          ≤ VDI_UNALLOCATED →
      countAlloc b32 s'.blockmap + s.header.blocks_allocated
        = countAlloc b32 s.blockmap + s'.header.blocks_allocated := by
  intro fuel
  induction fuel with
  | zero =>
    intro host s sn buf host' s' ret Heq _ _ _
    injection Heq with hH Heq2
    injection Heq2 with hS hR
    subst hS
    rfl
  | succ n ih =>
    intro host s sn buf host' s' ret Heq hbsec hlen hba
    simp only [vdi_write_loop] at Heq
    split_ifs at Heq with h1 h2 h3 h4 h5 h6
    · injection Heq with hH Heq2
      injection Heq2 with hS hR
      subst hS
      rfl
    all_goals push_neg at h1
    all_goals have hlen0 : 0 < buf.length := Nat.pos_of_ne_zero h1.1
    all_goals have hsib : sn % s.block_sectors < s.block_sectors := Nat.mod_lt sn hbsec
    all_goals have hspan1 : 1 ≤ blockSpan s.block_sectors (sn % s.block_sectors) buf.length :=
      blockSpan_pos hbsec hlen0 _
    · -- in the allocation branch the entry was the sentinel and gets value k
      have hbi : sn / s.block_sectors < s.blockmap.length :=
        (Nat.div_lt_iff_lt_mul hbsec).2 (lt_of_lt_of_le h1.2 hlen)
      have hcs := countAlloc_set b32 s.blockmap (sn / s.block_sectors)
        (b32 s.header.blocks_allocated) hbi
      rw [h2, if_pos rfl, h32] at hcs
      rw [if_neg (by unfold VDI_UNALLOCATED at hba ⊢; omega)] at hcs
      injection Heq with hH Heq2
      injection Heq2 with hS hR
      subst hS
      dsimp only
      omega
    · have hbi : sn / s.block_sectors < s.blockmap.length :=
        (Nat.div_lt_iff_lt_mul hbsec).2 (lt_of_lt_of_le h1.2 hlen)
      have hcs := countAlloc_set b32 s.blockmap (sn / s.block_sectors)
        (b32 s.header.blocks_allocated) hbi
      rw [h2, if_pos rfl, h32] at hcs
      rw [if_neg (by unfold VDI_UNALLOCATED at hba ⊢; omega)] at hcs
      injection Heq with hH Heq2
      injection Heq2 with hS hR
      subst hS
      dsimp only
      omega
    · have hbi : sn / s.block_sectors < s.blockmap.length :=
        (Nat.div_lt_iff_lt_mul hbsec).2 (lt_of_lt_of_le h1.2 hlen)
      have hcs := countAlloc_set b32 s.blockmap (sn / s.block_sectors)
        (b32 s.header.blocks_allocated) hbi
      rw [h2, if_pos rfl, h32] at hcs
      rw [if_neg (by unfold VDI_UNALLOCATED at hba ⊢; omega)] at hcs
      rw [vdi_header_cpu_le b32 b64 h32 h64] at Heq
      injection Heq with hH Heq2
      injection Heq2 with hS hR
      subst hS
      dsimp only
      omega
    · -- allocation succeeded: recurse
      have hbi : sn / s.block_sectors < s.blockmap.length :=
        (Nat.div_lt_iff_lt_mul hbsec).2 (lt_of_lt_of_le h1.2 hlen)
      have hcs := countAlloc_set b32 s.blockmap (sn / s.block_sectors)
        (b32 s.header.blocks_allocated) hbi
      rw [h2, if_pos rfl, h32] at hcs
      rw [if_neg (by unfold VDI_UNALLOCATED at hba ⊢; omega)] at hcs
      rw [vdi_header_cpu_le b32 b64 h32 h64] at Heq
      by_cases hd : buf.length ≤ min (s.block_sectors - sn % s.block_sectors) buf.length
      · rw [List.drop_eq_nil_of_le hd, vdi_write_loop_nil_eq] at Heq
        injection Heq with hH Heq2
        injection Heq2 with hS hR
        subst hS
        dsimp only
        omega
      · push_neg at hd
        have hn : min (s.block_sectors - sn % s.block_sectors) buf.length
            = s.block_sectors - sn % s.block_sectors := by omega
        have hnext := mod_next_block s.block_sectors sn hbsec
        have hstep := blockSpan_step hbsec hsib (by omega :
          s.block_sectors - sn % s.block_sectors < buf.length)
        have heq := ih _ _ _ _ _ _ _ Heq hbsec
          (by simpa using hlen) ?_
        · dsimp only at heq
          omega
        · show s.header.blocks_allocated + 1 + blockSpan s.block_sectors
              ((sn + min (s.block_sectors - sn % s.block_sectors) buf.length) % s.block_sectors)
              (buf.drop (min (s.block_sectors - sn % s.block_sectors) buf.length)).length
            ≤ VDI_UNALLOCATED
          rw [hn, hnext.1, List.length_drop]
          omega
    · injection Heq with hH Heq2
      injection Heq2 with hS hR
      subst hS
      rfl
    · -- write to an existing block succeeded: recurse with the same state
      by_cases hd : buf.length ≤ min (s.block_sectors - sn % s.block_sectors) buf.length
      · rw [List.drop_eq_nil_of_le hd, vdi_write_loop_nil_eq] at Heq
        injection Heq with hH Heq2
        injection Heq2 with hS hR
        subst hS
        rfl
      · push_neg at hd
        have hn : min (s.block_sectors - sn % s.block_sectors) buf.length
            = s.block_sectors - sn % s.block_sectors := by omega
        have hnext := mod_next_block s.block_sectors sn hbsec
        have hstep := blockSpan_step hbsec hsib (by omega :
          s.block_sectors - sn % s.block_sectors < buf.length)
        refine ih _ _ _ _ _ _ _ Heq hbsec hlen ?_
        show s.header.blocks_allocated + blockSpan s.block_sectors
            ((sn + min (s.block_sectors - sn % s.block_sectors) buf.length) % s.block_sectors)
            (buf.drop (min (s.block_sectors - sn % s.block_sectors) buf.length)).length
          ≤ VDI_UNALLOCATED
        rw [hn, hnext.1, List.length_drop]
        omega

/-! ### Characterization of the read loop -/

/-- When the read loop completes, the sectors it filled are precisely the
two-level-lookup denotation `readSector` of each requested logical sector. -/
theorem vdi_read_loop_some (b32 : Nat → Nat) (total : Nat) :
    ∀ (fuel : Nat) (host : Host) (s : BDRVVdiState) (sn nb : Nat) (acc l : List Sector),
      vdi_read_loop b32 total fuel host s sn nb acc = some l →
      0 < s.block_sectors →
      sn + nb ≤ total →
      l = acc ++ (List.range nb).map (fun j => readSector b32 host s (sn + j)) := by
  intro fuel
  induction fuel with
  | zero =>
    intro host s sn nb acc l Heq _ _
    exact absurd Heq (by simp [vdi_read_loop])
  | succ n ih =>
    intro host s sn nb acc l Heq hbsec hrange
    simp only [vdi_read_loop] at Heq
    split_ifs at Heq with h1 h2 h3
    · have hnb : nb = 0 := by omega
      subst hnb
      injection Heq with hl
      simp [← hl]
    all_goals push_neg at h1
    all_goals have hsib : sn % s.block_sectors < s.block_sectors := Nat.mod_lt sn hbsec
    · -- unallocated block: the loop appended zero sectors
      have hIH := ih _ _ _ _ _ _ Heq hbsec (by omega)
      have hsplit : List.range nb
          = List.range (min (s.block_sectors - sn % s.block_sectors) nb) ++
            (List.range (nb - min (s.block_sectors - sn % s.block_sectors) nb)).map
              (fun j => min (s.block_sectors - sn % s.block_sectors) nb + j) := by
        rw [← List.range_add]
        congr 1
        omega
      have hz : List.map (fun j => readSector b32 host s (sn + j))
            (List.range (min (s.block_sectors - sn % s.block_sectors) nb))
          = List.replicate (min (s.block_sectors - sn % s.block_sectors) nb) Sector.zero := by
        refine List.eq_replicate_iff.2 ⟨by simp, ?_⟩
        intro b hb
        simp only [List.mem_map, List.mem_range] at hb
        obtain ⟨j, hj, rfl⟩ := hb
        have hdm := div_mod_add s.block_sectors sn j hbsec (by omega)
        simp only [readSector, mapEntry, hdm.1, h2]
        simp
      have hshift : List.map (fun j => readSector b32 host s (sn + j))
            ((List.range (nb - min (s.block_sectors - sn % s.block_sectors) nb)).map
              (fun j => min (s.block_sectors - sn % s.block_sectors) nb + j))
          = List.map (fun j => readSector b32 host s
              (sn + min (s.block_sectors - sn % s.block_sectors) nb + j))
            (List.range (nb - min (s.block_sectors - sn % s.block_sectors) nb)) := by
        rw [List.map_map]
        refine List.map_congr_left ?_
        intro j hj
        simp only [Function.comp]
        congr 1
        omega
      rw [hIH, hsplit, List.map_append, hz, hshift, List.append_assoc]
    · -- allocated block: the loop appended the host-file sectors
      have hIH := ih _ _ _ _ _ _ Heq hbsec (by omega)
      have hsplit : List.range nb
          = List.range (min (s.block_sectors - sn % s.block_sectors) nb) ++
            (List.range (nb - min (s.block_sectors - sn % s.block_sectors) nb)).map
              (fun j => min (s.block_sectors - sn % s.block_sectors) nb + j) := by
        rw [← List.range_add]
        congr 1
        omega
      have hv : List.map (fun j => readSector b32 host s (sn + j))
            (List.range (min (s.block_sectors - sn % s.block_sectors) nb))
          = bdrv_read_val host
              (s.header.offset_data / SECTOR_SIZE +
                b32 (s.blockmap.getD (sn / s.block_sectors) 0) * s.block_sectors +
                sn % s.block_sectors)
              (min (s.block_sectors - sn % s.block_sectors) nb) := by
        rw [bdrv_read_val]
        refine List.map_congr_left ?_
        intro j hj
        simp only [List.mem_range] at hj
        have hdm := div_mod_add s.block_sectors sn j hbsec (by omega)
        simp only [readSector, mapEntry, dataSec, hdm.1, hdm.2, if_neg h2]
        exact congrArg host.file (by omega)
      have hshift : List.map (fun j => readSector b32 host s (sn + j))
            ((List.range (nb - min (s.block_sectors - sn % s.block_sectors) nb)).map
              (fun j => min (s.block_sectors - sn % s.block_sectors) nb + j))
          = List.map (fun j => readSector b32 host s
              (sn + min (s.block_sectors - sn % s.block_sectors) nb + j))
            (List.range (nb - min (s.block_sectors - sn % s.block_sectors) nb)) := by
        rw [List.map_map]
        refine List.map_congr_left ?_
        intro j hj
        simp only [Function.comp]
        congr 1
        omega
      rw [hIH, hsplit, List.map_append, hv, hshift, List.append_assoc]

/-- When no host read fails, the read loop completes (for the canonical fuel
`nb + 1`, since every iteration advances by at least one sector). -/
theorem vdi_read_loop_isSome (b32 : Nat → Nat) (total : Nat) :
    ∀ (fuel : Nat) (host : Host) (s : BDRVVdiState) (sn nb : Nat) (acc : List Sector),
      host.readFails = (fun _ _ => false) →
      0 < s.block_sectors →
      nb < fuel →
      ∃ l, vdi_read_loop b32 total fuel host s sn nb acc = some l := by
  intro fuel
  induction fuel with
  | zero => intro host s sn nb acc _ _ h; omega
  | succ n ih =>
    intro host s sn nb acc hnf hbsec hfuel
    simp only [vdi_read_loop]
    split_ifs with h1 h2 h3
    · exact ⟨acc, rfl⟩
    all_goals push_neg at h1
    all_goals have hsib : sn % s.block_sectors < s.block_sectors := Nat.mod_lt sn hbsec
    · exact ih _ _ _ _ _ hnf hbsec (by omega)
    · rw [hnf] at h3; exact absurd h3 (by simp)
    · exact ih _ _ _ _ _ hnf hbsec (by omega)

/-! ### Equation-style corollaries of the shape lemmas -/

theorem vdi_write_loop_shape_eq (b32 b64 : Nat → Nat) (total : Nat)
    (fuel : Nat) (host : Host) (s : BDRVVdiState) (sn : Nat) (buf : List Sector)
    (host' : Host) (s' : BDRVVdiState) (ret : Int)
    (Heq : vdi_write_loop b32 b64 total fuel host s sn buf = (host', s', ret)) :
    s'.block_sectors = s.block_sectors ∧ s'.blockmap.length = s.blockmap.length ∧
      host'.readFails = host.readFails ∧ host'.writeFails = host.writeFails := by
  have h := vdi_write_loop_shape b32 b64 total fuel host s sn buf
  rw [Heq] at h
  exact h

theorem vdi_write_loop_ba_mono_eq (b32 b64 : Nat → Nat) (h32 : ∀ x, b32 (b32 x) = x)
    (h64 : ∀ x, b64 (b64 x) = x) (total : Nat)
    (fuel : Nat) (host : Host) (s : BDRVVdiState) (sn : Nat) (buf : List Sector)
    (host' : Host) (s' : BDRVVdiState) (ret : Int)
    (Heq : vdi_write_loop b32 b64 total fuel host s sn buf = (host', s', ret)) :
    s.header.blocks_allocated ≤ s'.header.blocks_allocated := by
  have h := vdi_write_loop_ba_mono b32 b64 h32 h64 total fuel host s sn buf
  rw [Heq] at h
  exact h

theorem vdi_write_loop_map_lo_eq (b32 b64 : Nat → Nat) (total : Nat)
    (fuel : Nat) (host : Host) (s : BDRVVdiState) (sn : Nat) (buf : List Sector)
    (host' : Host) (s' : BDRVVdiState) (ret : Int)
    (Heq : vdi_write_loop b32 b64 total fuel host s sn buf = (host', s', ret))
    (i : Nat) (hi : i < sn / s.block_sectors) :
    s'.blockmap.getD i 0 = s.blockmap.getD i 0 := by
  have h := vdi_write_loop_map_lo b32 b64 total fuel host s sn buf i hi
  rw [Heq] at h
  exact h

theorem vdi_write_loop_header_eq (b32 b64 : Nat → Nat) (h32 : ∀ x, b32 (b32 x) = x)
    (h64 : ∀ x, b64 (b64 x) = x) (total : Nat)
    (fuel : Nat) (host : Host) (s : BDRVVdiState) (sn : Nat) (buf : List Sector)
    (host' : Host) (s' : BDRVVdiState) (ret : Int)
    (Heq : vdi_write_loop b32 b64 total fuel host s sn buf = (host', s', ret)) :
    s'.header = { s.header with blocks_allocated := s'.header.blocks_allocated } := by
  have h := vdi_write_loop_header b32 b64 h32 h64 total fuel host s sn buf
  rw [Heq] at h
  exact h

/-! ### Helper lemmas about the allocation write chain -/

theorem vdi_alloc_block_length (bsec sib n : Nat) (buf : List Sector)
    (h1 : n ≤ buf.length) (h2 : sib + n ≤ bsec) :
    (vdi_alloc_block bsec sib n buf).length = bsec := by
  simp only [vdi_alloc_block, List.length_append, List.length_replicate, List.length_take]
  omega

theorem vdi_alloc_block_getD (bsec sib n j : Nat) (buf : List Sector)
    (hj : j < n) (hn : n ≤ buf.length) :
    (vdi_alloc_block bsec sib n buf).getD (sib + j) Sector.zero = buf.getD j Sector.zero := by
  rw [vdi_alloc_block, List.append_assoc,
    List.getD_append_right _ _ _ _ (by simp),
    List.getD_append _ _ _ _ (by rw [List.length_take]; simp [List.length_replicate]; omega)]
  rw [List.length_replicate]
  have h : sib + j - sib = j := by omega
  rw [h]
  exact getD_take _ _ hj

/-- The value a sector holds after the three writes of the allocation path
(data block, one map sector, header sector), for a sector inside the data
block's window and distinct from the two metadata sectors. -/
theorem wok3_file_val (host : Host) (off off2 : Nat) (block : List Sector)
    (m h0 : Sector) (o : Nat) (ho1 : 1 ≤ o) (ho2 : o ≠ off2)
    (hwin : off ≤ o ∧ o < off + block.length) :
    (bdrv_write_ok (bdrv_write_ok (bdrv_write_ok host off block) off2 [m]) 0 [h0]).file o
      = block.getD (o - off) Sector.zero := by
  rw [bdrv_write_ok_file_out (by simp; omega)]
  rw [bdrv_write_ok_file_out (by simp; omega)]
  rw [bdrv_write_ok_file, if_pos hwin]

/-- A sector changed by the three writes of the allocation path is sector 0,
the map sector, or inside the data block's window. -/
theorem wok3_file_frame (host : Host) (off off2 : Nat) (block : List Sector)
    (m h0 : Sector) (o : Nat)
    (ho : (bdrv_write_ok (bdrv_write_ok (bdrv_write_ok host off block) off2 [m]) 0 [h0]).file o
      ≠ host.file o) :
    o = 0 ∨ o = off2 ∨ (off ≤ o ∧ o < off + block.length) := by
  by_contra hno
  push_neg at hno
  refine ho ?_
  rw [bdrv_write_ok_file_out (by simp; omega)]
  rw [bdrv_write_ok_file_out (by simp; omega)]
  rw [bdrv_write_ok_file_out (by omega)]

theorem div_lt_blockCap {total bsec sn : Nat} (hb : 0 < bsec) (h : sn < total) :
    sn / bsec < blockCap total bsec := by
  rw [blockCap]
  have h2 : sn + bsec ≤ total + bsec - 1 := by omega
  have h3 : (sn + bsec) / bsec ≤ (total + bsec - 1) / bsec := Nat.div_le_div_right h2
  rw [Nat.add_div_right sn hb] at h3
  omega

theorem wok1_file_frame {host : Host} {off : Nat} {block : List Sector} {o : Nat}
    (ho : (bdrv_write_ok host off block).file o ≠ host.file o) :
    off ≤ o ∧ o < off + block.length := by
  by_contra hno
  exact ho (bdrv_write_ok_file_out (by omega))

/-- Main success-path specification of the write loop.  The well-formedness
hypotheses say: the block map covers the virtual disk, the in-range entries
are the sentinel or an already-materialized physical index (hence below
`blocks_allocated`), non-sentinel in-range entries are pairwise distinct,
the on-disk block-map region (where the loop patches map sectors) ends
before the data region, and the physical indices stay below the sentinel.
Conclusions: (1) every written logical sector reads back, through the final
state's two-level lookup, as the caller's sector; (2) any changed file
sector lies below the data region (header/map sectors) or inside the region
of a physical block the loop wrote (a fresh one, or the existing one of an
in-range logical block at or after the first written block). -/
theorem vdi_write_loop_spec (b32 b64 : Nat → Nat) (h32 : ∀ x, b32 (b32 x) = x)
    (h64 : ∀ x, b64 (b64 x) = x) (total : Nat) :
    ∀ (fuel : Nat) (host : Host) (s : BDRVVdiState) (sn : Nat) (buf : List Sector)
      (host' : Host) (s' : BDRVVdiState),
      vdi_write_loop b32 b64 total fuel host s sn buf = (host', s', 0) →
      0 < s.block_sectors →
      total ≤ s.blockmap.length * s.block_sectors →
      sn + buf.length ≤ total →
      (∀ i, i < blockCap total s.block_sectors →
        b32 (s.blockmap.getD i 0) = VDI_UNALLOCATED ∨
          b32 (s.blockmap.getD i 0) < s.header.blocks_allocated) →
      (∀ i j, i < blockCap total s.block_sectors → j < blockCap total s.block_sectors →
        b32 (s.blockmap.getD i 0) ≠ VDI_UNALLOCATED →
        b32 (s.blockmap.getD i 0) = b32 (s.blockmap.getD j 0) → i = j) →
      (∀ k, k < s.header.blocks_allocated
            + blockSpan s.block_sectors (sn % s.block_sectors) buf.length →
        mapSecStart s + k / (SECTOR_SIZE / 4) < dataSec s) →
      s.header.blocks_allocated + blockSpan s.block_sectors (sn % s.block_sectors) buf.length
          ≤ VDI_UNALLOCATED →
      (∀ j, j < buf.length →
        readSector b32 host' s' (sn + j) = buf.getD j Sector.zero) ∧
      (∀ o, host'.file o ≠ host.file o →
        o < dataSec s ∨ ∃ p, p < s'.header.blocks_allocated ∧
          (s.header.blocks_allocated ≤ p ∨ (p ≠ VDI_UNALLOCATED ∧
            ∃ i, sn / s.block_sectors ≤ i ∧ i < blockCap total s.block_sectors ∧
              b32 (s.blockmap.getD i 0) = p)) ∧
          dataSec s + p * s.block_sectors ≤ o ∧
          o < dataSec s + (p + 1) * s.block_sectors) := by
  intro fuel
  induction fuel with
  | zero =>
    intro host s sn buf host' s' Heq _ _ _ _ _ _ _
    injection Heq with hH Heq2
    injection Heq2 with hS hR
    exact absurd hR (by decide)
  | succ n ih =>
    intro host s sn buf host' s' Heq hbsec hlen hrange hEnt hInj hCap hBa
    simp only [vdi_write_loop] at Heq
    split_ifs at Heq with h1 h2 h3 h4 h5 h6
    · -- loop exit
      injection Heq with hH Heq2
      injection Heq2 with hS hR
      subst hH
      subst hS
      have h0 : buf.length = 0 := by
        rcases h1 with h | h
        · exact h
        · omega
      refine ⟨fun j hj => absurd hj (by omega), fun o ho => absurd rfl ho⟩
    all_goals push_neg at h1
    all_goals have hlen0 : 0 < buf.length := Nat.pos_of_ne_zero h1.1
    all_goals have hsib : sn % s.block_sectors < s.block_sectors := Nat.mod_lt sn hbsec
    all_goals have hspan1 : 1 ≤ blockSpan s.block_sectors (sn % s.block_sectors) buf.length :=
      blockSpan_pos hbsec hlen0 _
    all_goals have hbi : sn / s.block_sectors < s.blockmap.length :=
      (Nat.div_lt_iff_lt_mul hbsec).2 (lt_of_lt_of_le h1.2 hlen)
    all_goals have hbiCap : sn / s.block_sectors < blockCap total s.block_sectors :=
      div_lt_blockCap hbsec h1.2
    all_goals
      have hD1 : 1 ≤ s.header.offset_data / SECTOR_SIZE := by
        have h := hCap s.header.blocks_allocated (by omega)
        simp only [mapSecStart, dataSec] at h
        exact Nat.lt_of_le_of_lt (Nat.zero_le _) h
    · -- data write failed (return value -1 ≠ 0)
      injection Heq with hH Heq2
      injection Heq2 with hS hR
      exact absurd hR (by decide)
    · -- map write failed
      injection Heq with hH Heq2
      injection Heq2 with hS hR
      exact absurd hR (by decide)
    · -- header write failed
      injection Heq with hH Heq2
      injection Heq2 with hS hR
      exact absurd hR (by decide)
    · -- allocation succeeded, loop continues
      rw [vdi_header_cpu_le b32 b64 h32 h64] at Heq
      have hkU : s.header.blocks_allocated ≠ VDI_UNALLOCATED := by
        unfold VDI_UNALLOCATED at hBa ⊢
        omega
      have hBM : s.header.blocks_allocated / (SECTOR_SIZE / 4) * (SECTOR_SIZE / 4) / (SECTOR_SIZE / 4)
          = s.header.blocks_allocated / (SECTOR_SIZE / 4) :=
        Nat.mul_div_cancel _ (by decide)
      have hoff2lt : s.header.offset_blockmap / SECTOR_SIZE +
          s.header.blocks_allocated / (SECTOR_SIZE / 4) * (SECTOR_SIZE / 4) / (SECTOR_SIZE / 4)
          < s.header.offset_data / SECTOR_SIZE := by
        have h := hCap s.header.blocks_allocated (by omega)
        simp only [mapSecStart, dataSec] at h
        rw [hBM]
        exact h
      have hblen : (vdi_alloc_block s.block_sectors (sn % s.block_sectors)
          (min (s.block_sectors - sn % s.block_sectors) buf.length) buf).length
          = s.block_sectors :=
        vdi_alloc_block_length _ _ _ _ (by omega) (by omega)
      by_cases hd : buf.length ≤ min (s.block_sectors - sn % s.block_sectors) buf.length
      · -- buffer ends inside this block: the recursive call exits at once
        rw [List.drop_eq_nil_of_le hd, vdi_write_loop_nil_eq] at Heq
        injection Heq with hH Heq2
        injection Heq2 with hS hR
        subst hH
        subst hS
        constructor
        · intro j hj
          have hdm := div_mod_add s.block_sectors sn j hbsec (by omega)
          simp only [readSector, mapEntry, dataSec, hdm.1, hdm.2]
          rw [getD_set_self _ _ _ _ hbi, h32, if_neg hkU]
          rw [wok3_file_val]
          · have hidx : s.header.offset_data / SECTOR_SIZE +
                s.header.blocks_allocated * s.block_sectors + (sn % s.block_sectors + j) -
                (s.header.offset_data / SECTOR_SIZE + s.header.blocks_allocated * s.block_sectors)
                = sn % s.block_sectors + j := by omega
            rw [hidx]
            exact vdi_alloc_block_getD _ _ _ _ _ (by omega) (by omega)
          · omega
          · omega
          · rw [hblen]
            omega
        · intro o ho
          rcases wok3_file_frame _ _ _ _ _ _ _ ho with h0 | hoff2 | hwin
          · left
            simp only [dataSec]
            omega
          · left
            simp only [dataSec]
            omega
          · right
            rw [hblen] at hwin
            refine ⟨s.header.blocks_allocated, ?_, Or.inl le_rfl, ?_, ?_⟩
            · exact Nat.lt_succ_self _
            · simp only [dataSec]
              omega
            · simp only [dataSec]
              have hmul : (s.header.blocks_allocated + 1) * s.block_sectors
                  = s.header.blocks_allocated * s.block_sectors + s.block_sectors := by ring
              omega
      · -- more blocks follow: apply the induction hypothesis
        push_neg at hd
        have hnmin : min (s.block_sectors - sn % s.block_sectors) buf.length
            = s.block_sectors - sn % s.block_sectors := by omega
        have hnext := mod_next_block s.block_sectors sn hbsec
        have hstep := blockSpan_step hbsec hsib (by omega :
          s.block_sectors - sn % s.block_sectors < buf.length)
        obtain ⟨hA1, hA4⟩ := ih _ _ _ _ _ _ Heq hbsec
          (by simpa using hlen)
          (by simp only [List.length_drop]; omega)
          (by
            intro i hi
            by_cases hib : i = sn / s.block_sectors
            · subst hib
              rw [getD_set_self _ _ _ _ hbi, h32]
              right
              exact Nat.lt_succ_self _
            · rw [getD_set_ne _ _ _ (Ne.symm hib)]
              rcases hEnt i hi with h | h
              · exact Or.inl h
              · exact Or.inr (lt_of_lt_of_le h (Nat.le_succ _)))
          (by
            intro i j hi hj hneU hEqv
            by_cases hib : i = sn / s.block_sectors <;>
              by_cases hjb : j = sn / s.block_sectors
            · rw [hib, hjb]
            · subst hib
              rw [getD_set_self _ _ _ _ hbi, h32] at hEqv
              rw [getD_set_ne _ _ _ (Ne.symm hjb)] at hEqv
              rcases hEnt j hj with h | h
              · exact absurd (hEqv.trans h) hkU
              · exact absurd hEqv (by omega)
            · subst hjb
              rw [getD_set_ne _ _ _ (Ne.symm hib)] at hEqv hneU
              rw [getD_set_self _ _ _ _ hbi, h32] at hEqv
              rcases hEnt i hi with h | h
              · exact absurd h hneU
              · exact absurd hEqv (by omega)
            · rw [getD_set_ne _ _ _ (Ne.symm hib)] at hEqv hneU
              rw [getD_set_ne _ _ _ (Ne.symm hjb)] at hEqv
              exact hInj i j hi hj hneU hEqv)
          (by
            intro k' hk'
            change k' < s.header.blocks_allocated + 1 + blockSpan s.block_sectors
              ((sn + min (s.block_sectors - sn % s.block_sectors) buf.length) % s.block_sectors)
              (buf.drop (min (s.block_sectors - sn % s.block_sectors) buf.length)).length at hk'
            rw [List.length_drop, hnmin, hnext.1] at hk'
            exact hCap k' (by omega))
          (by
            change s.header.blocks_allocated + 1 + blockSpan s.block_sectors
              ((sn + min (s.block_sectors - sn % s.block_sectors) buf.length) % s.block_sectors)
              (buf.drop (min (s.block_sectors - sn % s.block_sectors) buf.length)).length
              ≤ VDI_UNALLOCATED
            rw [List.length_drop, hnmin, hnext.1]
            omega)
        have hsh := vdi_write_loop_shape_eq _ _ _ _ _ _ _ _ _ _ _ Heq
        have hhd := vdi_write_loop_header_eq _ _ h32 h64 _ _ _ _ _ _ _ _ _ Heq
        have hmono := vdi_write_loop_ba_mono_eq _ _ h32 h64 _ _ _ _ _ _ _ _ _ Heq
        have hbsec' : s'.block_sectors = s.block_sectors := hsh.1
        have hod : s'.header.offset_data = s.header.offset_data := by
          rw [hhd]
        have hsn' : (sn + min (s.block_sectors - sn % s.block_sectors) buf.length) /
            s.block_sectors = sn / s.block_sectors + 1 := by
          rw [hnmin]
          exact hnext.2
        constructor
        · intro j hj
          by_cases hjh : j < min (s.block_sectors - sn % s.block_sectors) buf.length
          · -- sector written by this iteration
            have hdm := div_mod_add s.block_sectors sn j hbsec (by omega)
            have hml := vdi_write_loop_map_lo_eq _ _ _ _ _ _ _ _ _ _ _ Heq
              (sn / s.block_sectors)
              (by
                change sn / s.block_sectors <
                  (sn + min (s.block_sectors - sn % s.block_sectors) buf.length) / s.block_sectors
                rw [hsn']
                omega)
            have hentry : s'.blockmap.getD (sn / s.block_sectors) 0
                = b32 s.header.blocks_allocated := by
              rw [hml]
              exact getD_set_self _ _ _ _ hbi
            simp only [readSector, mapEntry, dataSec, hbsec', hod, hdm.1, hdm.2, hentry, h32]
            rw [if_neg hkU]
            rcases imp_iff_not_or.mp (hA4 (s.header.offset_data / SECTOR_SIZE +
                s.header.blocks_allocated * s.block_sectors +
                (sn % s.block_sectors + j))) with hchg | hreg
            · rw [not_not] at hchg
              rw [hchg, wok3_file_val]
              · have hidx : s.header.offset_data / SECTOR_SIZE +
                    s.header.blocks_allocated * s.block_sectors + (sn % s.block_sectors + j) -
                    (s.header.offset_data / SECTOR_SIZE +
                      s.header.blocks_allocated * s.block_sectors)
                    = sn % s.block_sectors + j := by omega
                rw [hidx]
                exact vdi_alloc_block_getD _ _ _ _ _ hjh (by omega)
              · omega
              · omega
              · rw [hblen]
                omega
            · exfalso
              rcases hreg with hlt | ⟨p, hp1, hp2, hp3, hp4⟩
              · have hlt' : s.header.offset_data / SECTOR_SIZE +
                    s.header.blocks_allocated * s.block_sectors +
                    (sn % s.block_sectors + j) < s.header.offset_data / SECTOR_SIZE := hlt
                omega
              · have hp3' : s.header.offset_data / SECTOR_SIZE + p * s.block_sectors ≤
                    s.header.offset_data / SECTOR_SIZE +
                      s.header.blocks_allocated * s.block_sectors +
                      (sn % s.block_sectors + j) := hp3
                have hp4' : s.header.offset_data / SECTOR_SIZE +
                    s.header.blocks_allocated * s.block_sectors +
                    (sn % s.block_sectors + j) <
                    s.header.offset_data / SECTOR_SIZE + (p + 1) * s.block_sectors := hp4
                have hpk : p = s.header.blocks_allocated := by
                  have hm1 : (p + 1) * s.block_sectors
                      = p * s.block_sectors + s.block_sectors := by ring
                  have hm2 : (s.header.blocks_allocated + 1) * s.block_sectors
                      = s.header.blocks_allocated * s.block_sectors + s.block_sectors := by ring
                  exact region_unique hp3' hp4' (by omega) (by omega)
                rcases hp2 with hge | ⟨hpU, i, hi1, hi2, hi3⟩
                · have hge' : s.header.blocks_allocated + 1 ≤ p := hge
                  omega
                · have hi1' : sn / s.block_sectors + 1 ≤ i := by
                    change (sn + min (s.block_sectors - sn % s.block_sectors) buf.length) /
                      s.block_sectors ≤ i at hi1
                    rw [hsn'] at hi1
                    exact hi1
                  have hi3' : b32 ((s.blockmap.set (sn / s.block_sectors)
                      (b32 s.header.blocks_allocated)).getD i 0) = p := hi3
                  rw [getD_set_ne _ _ _ (by omega : sn / s.block_sectors ≠ i)] at hi3'
                  have hi2' : i < blockCap total s.block_sectors := hi2
                  rcases hEnt i hi2' with hU | hlt2
                  · rw [hi3'] at hU
                    exact hpU hU
                  · rw [hi3'] at hlt2
                    omega
          · -- sector written by the recursive call
            push_neg at hjh
            have h := hA1 (j - min (s.block_sectors - sn % s.block_sectors) buf.length)
              (by rw [List.length_drop]; omega)
            rw [getD_drop] at h
            have hidx1 : sn + min (s.block_sectors - sn % s.block_sectors) buf.length +
                (j - min (s.block_sectors - sn % s.block_sectors) buf.length) = sn + j := by
              omega
            have hidx2 : min (s.block_sectors - sn % s.block_sectors) buf.length +
                (j - min (s.block_sectors - sn % s.block_sectors) buf.length) = j := by
              omega
            rw [hidx1, hidx2] at h
            exact h
        · intro o ho
          rcases imp_iff_not_or.mp (hA4 o) with hchg | hreg
          · rw [not_not] at hchg
            rw [hchg] at ho
            rcases wok3_file_frame _ _ _ _ _ _ _ ho with h0 | hoff2 | hwin
            · left
              simp only [dataSec]
              omega
            · left
              simp only [dataSec]
              omega
            · right
              rw [hblen] at hwin
              refine ⟨s.header.blocks_allocated, ?_, Or.inl le_rfl, ?_, ?_⟩
              · have hmono' : s.header.blocks_allocated + 1 ≤ s'.header.blocks_allocated :=
                  hmono
                omega
              · simp only [dataSec]
                omega
              · simp only [dataSec]
                have hmul : (s.header.blocks_allocated + 1) * s.block_sectors
                  = s.header.blocks_allocated * s.block_sectors + s.block_sectors := by ring
                omega
          · rcases hreg with hlt | ⟨p, hp1, hp2, hp3, hp4⟩
            · left
              exact hlt
            · right
              refine ⟨p, hp1, ?_, by exact hp3, by exact hp4⟩
              rcases hp2 with hge | ⟨hpU, i, hi1, hi2, hi3⟩
              · left
                have hge' : s.header.blocks_allocated + 1 ≤ p := hge
                omega
              · right
                have hi1' : sn / s.block_sectors + 1 ≤ i := by
                  change (sn + min (s.block_sectors - sn % s.block_sectors) buf.length) /
                    s.block_sectors ≤ i at hi1
                  rw [hsn'] at hi1
                  exact hi1
                have hi3' : b32 ((s.blockmap.set (sn / s.block_sectors)
                    (b32 s.header.blocks_allocated)).getD i 0) = p := hi3
                rw [getD_set_ne _ _ _ (by omega : sn / s.block_sectors ≠ i)] at hi3'
                exact ⟨hpU, i, by omega, by exact hi2, hi3'⟩
    · -- write to an existing block failed
      injection Heq with hH Heq2
      injection Heq2 with hS hR
      exact absurd hR (by decide)
    · -- write to an existing block succeeded
      have heU : b32 (s.blockmap.getD (sn / s.block_sectors) 0) ≠ VDI_UNALLOCATED := h2
      have heLt : b32 (s.blockmap.getD (sn / s.block_sectors) 0)
          < s.header.blocks_allocated := by
        rcases hEnt _ hbiCap with h | h
        · exact absurd h heU
        · exact h
      have htlen : (buf.take (min (s.block_sectors - sn % s.block_sectors) buf.length)).length
          = min (s.block_sectors - sn % s.block_sectors) buf.length := by
        rw [List.length_take]
        omega
      by_cases hd : buf.length ≤ min (s.block_sectors - sn % s.block_sectors) buf.length
      · rw [List.drop_eq_nil_of_le hd, vdi_write_loop_nil_eq] at Heq
        injection Heq with hH Heq2
        injection Heq2 with hS hR
        subst hH
        subst hS
        constructor
        · intro j hj
          have hdm := div_mod_add s.block_sectors sn j hbsec (by omega)
          simp only [readSector, mapEntry, dataSec, hdm.1, hdm.2]
          rw [if_neg h2]
          rw [bdrv_write_ok_file, if_pos (by rw [htlen]; omega)]
          have hidx : s.header.offset_data / SECTOR_SIZE +
              b32 (s.blockmap.getD (sn / s.block_sectors) 0) * s.block_sectors +
              (sn % s.block_sectors + j) -
              (s.header.offset_data / SECTOR_SIZE +
                b32 (s.blockmap.getD (sn / s.block_sectors) 0) * s.block_sectors +
                sn % s.block_sectors) = j := by omega
          rw [hidx]
          exact getD_take _ _ (by omega)
        · intro o ho
          have hwin := wok1_file_frame ho
          rw [htlen] at hwin
          right
          refine ⟨b32 (s.blockmap.getD (sn / s.block_sectors) 0), heLt, Or.inr
            ⟨heU, sn / s.block_sectors, le_rfl, hbiCap, rfl⟩, ?_, ?_⟩
          · simp only [dataSec]
            omega
          · simp only [dataSec]
            have hmul : (b32 (s.blockmap.getD (sn / s.block_sectors) 0) + 1) * s.block_sectors
                = b32 (s.blockmap.getD (sn / s.block_sectors) 0) * s.block_sectors
                  + s.block_sectors := by ring
            omega
      · push_neg at hd
        have hnmin : min (s.block_sectors - sn % s.block_sectors) buf.length
            = s.block_sectors - sn % s.block_sectors := by omega
        have hnext := mod_next_block s.block_sectors sn hbsec
        have hstep := blockSpan_step hbsec hsib (by omega :
          s.block_sectors - sn % s.block_sectors < buf.length)
        obtain ⟨hA1, hA4⟩ := ih _ _ _ _ _ _ Heq hbsec hlen
          (by simp only [List.length_drop]; omega)
          hEnt hInj
          (by
            intro k' hk'
            rw [List.length_drop, hnmin, hnext.1] at hk'
            exact hCap k' (by omega))
          (by
            rw [List.length_drop, hnmin, hnext.1]
            omega)
        have hsh := vdi_write_loop_shape_eq _ _ _ _ _ _ _ _ _ _ _ Heq
        have hhd := vdi_write_loop_header_eq _ _ h32 h64 _ _ _ _ _ _ _ _ _ Heq
        have hbsec' : s'.block_sectors = s.block_sectors := hsh.1
        have hod : s'.header.offset_data = s.header.offset_data := by
          rw [hhd]
        have hsn' : (sn + min (s.block_sectors - sn % s.block_sectors) buf.length) /
            s.block_sectors = sn / s.block_sectors + 1 := by
          rw [hnmin]
          exact hnext.2
        constructor
        · intro j hj
          by_cases hjh : j < min (s.block_sectors - sn % s.block_sectors) buf.length
          · have hdm := div_mod_add s.block_sectors sn j hbsec (by omega)
            have hml := vdi_write_loop_map_lo_eq _ _ _ _ _ _ _ _ _ _ _ Heq
              (sn / s.block_sectors) (by rw [hsn']; omega)
            simp only [readSector, mapEntry, dataSec, hbsec', hod, hdm.1, hdm.2, hml]
            rw [if_neg h2]
            rcases imp_iff_not_or.mp (hA4 (s.header.offset_data / SECTOR_SIZE +
                b32 (s.blockmap.getD (sn / s.block_sectors) 0) * s.block_sectors +
                (sn % s.block_sectors + j))) with hchg | hreg
            · rw [not_not] at hchg
              rw [hchg]
              rw [bdrv_write_ok_file, if_pos (by rw [htlen]; omega)]
              have hidx : s.header.offset_data / SECTOR_SIZE +
                  b32 (s.blockmap.getD (sn / s.block_sectors) 0) * s.block_sectors +
                  (sn % s.block_sectors + j) -
                  (s.header.offset_data / SECTOR_SIZE +
                    b32 (s.blockmap.getD (sn / s.block_sectors) 0) * s.block_sectors +
                    sn % s.block_sectors) = j := by omega
              rw [hidx]
              exact getD_take _ _ (by omega)
            · exfalso
              rcases hreg with hlt | ⟨p, hp1, hp2, hp3, hp4⟩
              · simp only [dataSec] at hlt
                omega
              · simp only [dataSec] at hp3 hp4
                have hpk : p = b32 (s.blockmap.getD (sn / s.block_sectors) 0) := by
                  have hm1 : (p + 1) * s.block_sectors
                      = p * s.block_sectors + s.block_sectors := by ring
                  have hm2 : (b32 (s.blockmap.getD (sn / s.block_sectors) 0) + 1) * s.block_sectors
                      = b32 (s.blockmap.getD (sn / s.block_sectors) 0) * s.block_sectors
                        + s.block_sectors := by ring
                  exact region_unique hp3 hp4 (by omega) (by omega)
                rcases hp2 with hge | ⟨hpU, i, hi1, hi2, hi3⟩
                · omega
                · have hi1' : sn / s.block_sectors + 1 ≤ i := by
                    rw [hsn'] at hi1
                    exact hi1
                  have := hInj i (sn / s.block_sectors) hi2 hbiCap
                    (by rw [hi3]; rw [hpk] at hpU ⊢; exact hpU)
                    (by rw [hi3, hpk])
                  omega
          · push_neg at hjh
            have h := hA1 (j - min (s.block_sectors - sn % s.block_sectors) buf.length)
              (by rw [List.length_drop]; omega)
            rw [getD_drop] at h
            have hidx1 : sn + min (s.block_sectors - sn % s.block_sectors) buf.length +
                (j - min (s.block_sectors - sn % s.block_sectors) buf.length) = sn + j := by
              omega
            have hidx2 : min (s.block_sectors - sn % s.block_sectors) buf.length +
                (j - min (s.block_sectors - sn % s.block_sectors) buf.length) = j := by
              omega
            rw [hidx1, hidx2] at h
            exact h
        · intro o ho
          rcases imp_iff_not_or.mp (hA4 o) with hchg | hreg
          · rw [not_not] at hchg
            rw [hchg] at ho
            have hwin := wok1_file_frame ho
            rw [htlen] at hwin
            right
            refine ⟨b32 (s.blockmap.getD (sn / s.block_sectors) 0), ?_, Or.inr
              ⟨heU, sn / s.block_sectors, le_rfl, hbiCap, rfl⟩, ?_, ?_⟩
            · have hmono := vdi_write_loop_ba_mono_eq _ _ h32 h64 _ _ _ _ _ _ _ _ _ Heq
              omega
            · simp only [dataSec]
              omega
            · simp only [dataSec]
              have hmul : (b32 (s.blockmap.getD (sn / s.block_sectors) 0) + 1) * s.block_sectors
                  = b32 (s.blockmap.getD (sn / s.block_sectors) 0) * s.block_sectors
                    + s.block_sectors := by ring
              omega
          · rcases hreg with hlt | ⟨p, hp1, hp2, hp3, hp4⟩
            · left
              exact hlt
            · right
              refine ⟨p, hp1, ?_, hp3, hp4⟩
              rcases hp2 with hge | ⟨hpU, i, hi1, hi2, hi3⟩
              · exact Or.inl hge
              · right
                have hi1' : sn / s.block_sectors + 1 ≤ i := by
                  rw [hsn'] at hi1
                  exact hi1
                exact ⟨hpU, i, by omega, hi2, hi3⟩

/-! ### Wrapper and encoding helper lemmas -/

theorem vdi_read_natCast (b32 : Nat → Nat) (total : Nat) (host : Host) (s : BDRVVdiState)
    (sn nb : Nat) :
    vdi_read b32 total host s (sn : Int) nb
      = vdi_read_loop b32 total (nb + 1) host s sn nb [] := by
  simp only [vdi_read]
  rw [if_neg (by omega), Int.toNat_natCast]

theorem vdi_write_natCast (b32 b64 : Nat → Nat) (total : Nat) (host : Host)
    (s : BDRVVdiState) (sn : Nat) (buf : List Sector) :
    vdi_write b32 b64 total host s (sn : Int) buf
      = vdi_write_loop b32 b64 total (buf.length + 1) host s sn buf := by
  simp only [vdi_write]
  rw [if_neg (by omega), Int.toNat_natCast]

theorem VDI_TEXT_len : VDI_TEXT.length = 35 := rfl

set_option maxRecDepth 4000 in
theorem vdi_create_header_bytes_length (b : Nat) (st : Bool) :
    (vdi_create_header_bytes b st).length = 512 := rfl

theorem vdi_create_header_bytes_sig (b : Nat) (st : Bool) :
    le32_at (vdi_create_header_bytes b st) 64 = VDI_SIGNATURE := by
  have hlen64 : (VDI_TEXT ++ List.replicate (64 - VDI_TEXT.length) 0).length = 64 := by
    simp [VDI_TEXT_len]
  have peel : ∀ (n : Nat) (l : List Nat), 64 ≤ n →
      ((VDI_TEXT ++ List.replicate (64 - VDI_TEXT.length) 0) ++ l).getD n 0
        = l.getD (n - 64) 0 := by
    intro n l hn
    rw [List.getD_append_right _ _ _ _ (by omega), hlen64]
  have g0 : ∀ (x : Nat) (l : List Nat), (le4 x ++ l).getD 0 0 = x % 256 := fun x l => rfl
  have g1 : ∀ (x : Nat) (l : List Nat), (le4 x ++ l).getD 1 0 = x / 256 % 256 := fun x l => rfl
  have g2 : ∀ (x : Nat) (l : List Nat), (le4 x ++ l).getD 2 0 = x / 65536 % 256 :=
    fun x l => rfl
  have g3 : ∀ (x : Nat) (l : List Nat), (le4 x ++ l).getD 3 0 = x / 16777216 % 256 :=
    fun x l => rfl
  simp only [vdi_create_header_bytes, vdi_create_header, le32_at]
  rw [peel 64 _ (by norm_num), peel (64 + 1) _ (by norm_num), peel (64 + 2) _ (by norm_num),
    peel (64 + 3) _ (by norm_num),
    show (64 : Nat) - 64 = 0 from rfl, show (64 : Nat) + 1 - 64 = 1 from rfl,
    show (64 : Nat) + 2 - 64 = 2 from rfl, show (64 : Nat) + 3 - 64 = 3 from rfl,
    g0, g1, g2, g3]
  decide

theorem getD_replicate {α : Type} (n i : Nat) (a d : α) (h : i < n) :
    (List.replicate n a).getD i d = a := by
  rw [List.getD_eq_getElem?_getD, List.getElem?_replicate, if_pos h]
  rfl

theorem map_range_getD {α : Type} (f : Nat → α) (n j : Nat) (d : α) (h : j < n) :
    ((List.range n).map f).getD j d = f j := by
  rw [List.getD_eq_getElem?_getD, List.getElem?_map, List.getElem?_range h]
  rfl

/-- On the first write to an unallocated block, the loop stores the prior
`blocks_allocated` (in little-endian form) into that block's map entry, and
no later iteration touches that entry again — also when one of the three
writes then fails. -/
theorem vdi_write_loop_alloc_first (b32 b64 : Nat → Nat) (total : Nat) :
    ∀ (fuel : Nat) (host : Host) (s : BDRVVdiState) (sn : Nat) (buf : List Sector)
      (host' : Host) (s' : BDRVVdiState) (ret : Int),
      vdi_write_loop b32 b64 total (fuel + 1) host s sn buf = (host', s', ret) →
      0 < s.block_sectors →
      total ≤ s.blockmap.length * s.block_sectors →
      buf.length ≠ 0 → sn < total →
      b32 (s.blockmap.getD (sn / s.block_sectors) 0) = VDI_UNALLOCATED →
      s'.blockmap.getD (sn / s.block_sectors) 0 = b32 s.header.blocks_allocated := by
  intro fuel host s sn buf host' s' ret Heq hbsec hlen hlen0 hsn hU
  have hsib : sn % s.block_sectors < s.block_sectors := Nat.mod_lt sn hbsec
  have hbi : sn / s.block_sectors < s.blockmap.length :=
    (Nat.div_lt_iff_lt_mul hbsec).2 (lt_of_lt_of_le hsn hlen)
  simp only [vdi_write_loop] at Heq
  split_ifs at Heq with h1 h2 h3 h4
  · exact absurd h1 (by omega)
  · injection Heq with hH Heq2
    injection Heq2 with hS hR
    subst hS
    exact getD_set_self _ _ _ _ hbi
  · injection Heq with hH Heq2
    injection Heq2 with hS hR
    subst hS
    exact getD_set_self _ _ _ _ hbi
  · injection Heq with hH Heq2
    injection Heq2 with hS hR
    subst hS
    exact getD_set_self _ _ _ _ hbi
  · by_cases hd : buf.length ≤ min (s.block_sectors - sn % s.block_sectors) buf.length
    · rw [List.drop_eq_nil_of_le hd, vdi_write_loop_nil_eq] at Heq
      injection Heq with hH Heq2
      injection Heq2 with hS hR
      subst hS
      exact getD_set_self _ _ _ _ hbi
    · push_neg at hd
      have hnmin : min (s.block_sectors - sn % s.block_sectors) buf.length
          = s.block_sectors - sn % s.block_sectors := by omega
      have hnext := mod_next_block s.block_sectors sn hbsec
      have hml := vdi_write_loop_map_lo_eq _ _ _ _ _ _ _ _ _ _ _ Heq (sn / s.block_sectors)
        (by
          change sn / s.block_sectors <
            (sn + min (s.block_sectors - sn % s.block_sectors) buf.length) / s.block_sectors
          rw [hnmin, hnext.2]
          omega)
      rw [hml]
      exact getD_set_self _ _ _ _ hbi

/-- `vdi_probe` in closed form: 100 exactly when the buffer is at least
`sizeof(VdiHeader)` bytes and the little-endian `signature` field matches,
0 otherwise. -/
theorem vdi_probe_eq (buf : List Nat) :
    vdi_probe buf
      = if sizeof_VdiHeader ≤ buf.length ∧ le32_at buf 64 = VDI_SIGNATURE then 100 else 0 := by
  simp only [vdi_probe]
  split_ifs with h1 h2 h3 h4 h5
  · exact absurd h2.1 (by omega)
  · rfl
  · rfl
  · exact absurd ⟨by omega, h3⟩ h4
  · exact absurd h5.2 h3
  · rfl

theorem map_range_getD_self {α : Type} (l : List α) (d : α) :
    (List.range l.length).map (fun j => l.getD j d) = l := by
  refine List.ext_getElem (by simp) ?_
  intro i h1 h2
  simp [List.getD_eq_getElem?_getD, List.getElem?_eq_getElem h2]

/-- The read loop over a range whose blocks are all unallocated: it returns
zero sectors and never consults the host file (the host is arbitrary; in
particular its read-failure oracle is never asked). -/
theorem vdi_read_loop_unalloc (b32 : Nat → Nat) (total : Nat) :
    ∀ (fuel : Nat) (host : Host) (s : BDRVVdiState) (sn nb : Nat) (acc : List Sector),
      0 < s.block_sectors → nb < fuel → sn + nb ≤ total →
      (∀ j, j < nb → b32 (s.blockmap.getD ((sn + j) / s.block_sectors) 0) = VDI_UNALLOCATED) →
      vdi_read_loop b32 total fuel host s sn nb acc
        = some (acc ++ List.replicate nb Sector.zero) := by
  intro fuel
  induction fuel with
  | zero => intro host s sn nb acc _ h _ _; omega
  | succ n ih =>
    intro host s sn nb acc hbsec hfuel hrange hAllU
    simp only [vdi_read_loop]
    split_ifs with h1 h2 h3
    · have h0 : nb = 0 := by omega
      subst h0
      simp
    all_goals push_neg at h1
    all_goals have hsib : sn % s.block_sectors < s.block_sectors := Nat.mod_lt sn hbsec
    · refine (ih host s (sn + min (s.block_sectors - sn % s.block_sectors) nb)
        (nb - min (s.block_sectors - sn % s.block_sectors) nb)
        (acc ++ List.replicate (min (s.block_sectors - sn % s.block_sectors) nb) Sector.zero)
        hbsec (by omega) (by omega) ?_).trans ?_
      · intro j hj
        have h := hAllU (min (s.block_sectors - sn % s.block_sectors) nb + j) (by omega)
        rw [Nat.add_assoc]
        exact h
      · rw [List.append_assoc, ← List.replicate_add]
        have hm : min (s.block_sectors - sn % s.block_sectors) nb
            + (nb - min (s.block_sectors - sn % s.block_sectors) nb) = nb := by omega
        rw [hm]
    · have h0 := hAllU 0 (by omega)
      rw [Nat.add_zero] at h0
      exact absurd h0 h2
    · have h0 := hAllU 0 (by omega)
      rw [Nat.add_zero] at h0
      exact absurd h0 h2

/-- A single `vdi_write` never decreases `blocks_allocated`, whatever its
result. -/
theorem vdi_write_ba_mono (b32 b64 : Nat → Nat) (h32 : ∀ x, b32 (b32 x) = x)
    (h64 : ∀ x, b64 (b64 x) = x) (total : Nat) (host : Host) (s : BDRVVdiState)
    (sn : Int) (buf : List Sector) :
    s.header.blocks_allocated
      ≤ (vdi_write b32 b64 total host s sn buf).2.1.header.blocks_allocated := by
  simp only [vdi_write]
  split_ifs with h1
  · exact le_refl _
  · exact vdi_write_loop_ba_mono b32 b64 h32 h64 total (buf.length + 1) host s sn.toNat buf

/-- `blocks_allocated` is non-decreasing across any sequence of writes. -/
theorem vdi_write_seq_ba_mono (b32 b64 : Nat → Nat) (h32 : ∀ x, b32 (b32 x) = x)
    (h64 : ∀ x, b64 (b64 x) = x) (total : Nat) :
    ∀ (reqs : List (Int × List Sector)) (host : Host) (s : BDRVVdiState),
      s.header.blocks_allocated
        ≤ (vdi_write_seq b32 b64 total reqs (host, s)).2.header.blocks_allocated := by
  intro reqs
  induction reqs with
  | nil =>
    intro host s
    exact le_refl _
  | cons p rest ih =>
    intro host s
    obtain ⟨sn, buf⟩ := p
    simp only [vdi_write_seq]
    exact le_trans (vdi_write_ba_mono b32 b64 h32 h64 total host s sn buf) (ih _ _)

/-! ### The claims -/

set_option maxRecDepth 100000 in
/-- C1: the claim says the Map Sector Write of the growth protocol targets
file sector `offset_blockmap/512 + ⌊block_index·4/512⌋`, the sector holding
entry `block_index`.  The code computes the target from the physical index
`k` instead.  On a fresh 256-block image, the first write — one sector at
sector 262144, logical block 128 — succeeds and allocates the block in
memory, yet the file sector named by the claim (sector 2, which holds entry
128) is untouched, while the write went to sector 1, whose 128 entries
(0..127) are all still the sentinel. -/
theorem C1_map_write_misses_entry_sector :
    (vdi_write (fun x => x) (fun x => x) 524288 host99 state256 262144
        [Sector.raw 7]).2.2 = 0 ∧
    (vdi_write (fun x => x) (fun x => x) 524288 host99 state256 262144
        [Sector.raw 7]).2.1.blockmap.getD (262144 / state256.block_sectors) 0 = 0 ∧
    (vdi_write (fun x => x) (fun x => x) 524288 host99 state256 262144
        [Sector.raw 7]).1.file
        (mapSecStart state256 + 262144 / state256.block_sectors * 4 / SECTOR_SIZE)
      = host99.file
        (mapSecStart state256 + 262144 / state256.block_sectors * 4 / SECTOR_SIZE) ∧
    (vdi_write (fun x => x) (fun x => x) 524288 host99 state256 262144
        [Sector.raw 7]).1.file (mapSecStart state256)
      = Sector.mapSec (List.replicate 128 VDI_UNALLOCATED) := by
  decide

/-- C2: `vdi_open` accepts or rejects a header exactly by version, blockmap
alignment, data alignment, sector size, block size and disk size; the
`signature` field does not occur in the characterization, so a bad-signature
header is not rejected. -/
theorem C2_open_validation_ignores_signature (hd : VdiHeader) :
    vdi_open_hdr_ok hd = true ↔
      (hd.version = VDI_VERSION_1_1 ∧ hd.offset_blockmap % SECTOR_SIZE = 0 ∧
        hd.offset_data % SECTOR_SIZE = 0 ∧ hd.sector_size = SECTOR_SIZE ∧
        hd.block_size = 1 * MiB ∧ hd.disk_size = hd.blocks_in_image * hd.block_size) := by
  simp only [vdi_open_hdr_ok]
  split_ifs with h1 h2 h3 h4 h5 h6 <;> simp_all

/-- C2 counterexample: a header whose signature is 0 — not `VDI_SIGNATURE` —
passes every check `vdi_open` performs, refuting the claim that Open rejects
any bad-signature header. -/
theorem C2_counterexample_bad_signature_accepted :
    hdrBadSig.signature ≠ VDI_SIGNATURE ∧ vdi_open_hdr_ok hdrBadSig = true := by
  decide

/-- C3: `vdi_probe` returns 100 exactly when the buffer is at least
`sizeof(VdiHeader)` and the signature matches — the version field plays no
role; a header produced by `vdi_create` probes 100, and any 64-byte buffer
probes 0. -/
theorem C3_probe_ignores_version (buf : List Nat) (b r : Nat) (st : Bool) :
    (vdi_probe buf = 100 ↔
        sizeof_VdiHeader ≤ buf.length ∧ le32_at buf 64 = VDI_SIGNATURE) ∧
    vdi_probe (vdi_create_header_bytes b st) = 100 ∧
    vdi_probe (List.replicate 64 r) = 0 := by
  refine ⟨?_, ?_, ?_⟩
  · rw [vdi_probe_eq]
    split_ifs with h
    · simp [h]
    · simp [h]
  · have hcond : sizeof_VdiHeader ≤ (vdi_create_header_bytes b st).length ∧
        le32_at (vdi_create_header_bytes b st) 64 = VDI_SIGNATURE := by
      refine ⟨?_, vdi_create_header_bytes_sig b st⟩
      rw [vdi_create_header_bytes_length]
      exact le_refl _
    rw [vdi_probe_eq, if_pos hcond]
  · rw [vdi_probe_eq, if_neg]
    rintro ⟨hle, -⟩
    simp [sizeof_VdiHeader] at hle

set_option maxRecDepth 10000 in
/-- C3 counterexample: a 512-byte buffer with a valid signature and version
field 0 probes 100, refuting the claim that 100 requires the version to
match. -/
theorem C3_counterexample_good_signature_bad_version :
    vdi_probe probeBufBadVersion = 100 ∧
      le32_at probeBufBadVersion 68 ≠ VDI_VERSION_1_1 := by
  decide

/-- C4: when the full-block data write of the growth protocol fails, the
function surfaces -1 but the in-memory state keeps the allocation: the map
entry for the block holds the new physical index and `blocks_allocated`
stays incremented — there is no revert. -/
theorem C4_data_write_failure_keeps_allocation (b32 b64 : Nat → Nat) (total : Nat)
    (host : Host) (s : BDRVVdiState) (sn : Nat) (buf : List Sector)
    (hlen0 : buf.length ≠ 0) (hsn : sn < total)
    (hU : b32 (s.blockmap.getD (sn / s.block_sectors) 0) = VDI_UNALLOCATED)
    (hfail : host.writeFails
        (s.header.offset_data / SECTOR_SIZE + s.header.blocks_allocated * s.block_sectors)
        (vdi_alloc_block s.block_sectors (sn % s.block_sectors)
          (min (s.block_sectors - sn % s.block_sectors) buf.length) buf).length = true) :
    vdi_write b32 b64 total host s (sn : Int) buf
      = (host,
          { s with
              blockmap := s.blockmap.set (sn / s.block_sectors)
                (b32 s.header.blocks_allocated),
              header := { s.header with
                blocks_allocated := s.header.blocks_allocated + 1 } },
          -1) := by
  rw [vdi_write_natCast]
  simp only [vdi_write_loop]
  split_ifs with h1
  · exact absurd h1 (by omega)
  · rfl

/-- C4 witness: on a fresh 256-block image with a host whose data-region
writes fail, a one-sector write at sector 0 returns -1 and leaves the
allocation in the state. -/
theorem C4_data_write_failure_keeps_allocation_witness :
    vdi_write (fun x => x) (fun x => x) 524288 hostDataWriteFails state256
        ((0 : Nat) : Int) [Sector.raw 7]
      = (hostDataWriteFails,
          { state256 with
              blockmap := state256.blockmap.set (0 / state256.block_sectors)
                ((fun x => x) state256.header.blocks_allocated),
              header := { state256.header with
                blocks_allocated := state256.header.blocks_allocated + 1 } },
          -1) :=
  C4_data_write_failure_keeps_allocation (fun x => x) (fun x => x) 524288 hostDataWriteFails
    state256 0 [Sector.raw 7] (by decide) (by decide) (by decide) (by decide)

/-- C4 counterexample: the same run shows the state is not reverted — the
map entry is no longer the sentinel and `blocks_allocated` is still bumped
when the -1 is surfaced — refuting the claim that Write-1 failure leaves
the in-memory state unchanged. -/
theorem C4_counterexample_state_not_reverted :
    (vdi_write (fun x => x) (fun x => x) 524288 hostDataWriteFails state256 0
        [Sector.raw 7]).2.2 = -1 ∧
    (vdi_write (fun x => x) (fun x => x) 524288 hostDataWriteFails state256 0
        [Sector.raw 7]).2.1.blockmap.getD 0 0 ≠ VDI_UNALLOCATED ∧
    (vdi_write (fun x => x) (fun x => x) 524288 hostDataWriteFails state256 0
        [Sector.raw 7]).2.1.header.blocks_allocated
      = state256.header.blocks_allocated + 1 := by
  decide

/-- C5: the only effect of the static option in `vdi_create` is the
`image_type` field; `blocks_allocated` stays 0 and every in-range block-map
entry is the `VDI_UNALLOCATED` sentinel, exactly as for a dynamic image —
no pre-allocation happens. -/
theorem C5_create_static_sets_only_image_type (bytes : Nat) :
    (vdi_create_header bytes true).image_type = VDI_TYPE_STATIC ∧
    vdi_create_header bytes true
      = { vdi_create_header bytes false with image_type := VDI_TYPE_STATIC } ∧
    (vdi_create_header bytes true).blocks_allocated = 0 ∧
    (vdi_create_blockmap bytes).take (vdi_create_blocks bytes)
      = List.replicate (vdi_create_blocks bytes) VDI_UNALLOCATED := by
  refine ⟨rfl, rfl, rfl, ?_⟩
  rw [vdi_create_blockmap]
  exact List.take_left' (by simp)

/-- C5 counterexample: creating a 2 MiB static image yields
`blocks_in_image = 2` but `blocks_allocated = 0`, and the first map entry
is the sentinel rather than a physical index, refuting the pre-allocation
claim. -/
theorem C5_counterexample_static_not_preallocated :
    (vdi_create_header (2 * MiB) true).image_type = VDI_TYPE_STATIC ∧
    (vdi_create_header (2 * MiB) true).blocks_in_image = 2 ∧
    (vdi_create_header (2 * MiB) true).blocks_allocated = 0 ∧
    (vdi_create_blockmap (2 * MiB)).getD 0 0 = VDI_UNALLOCATED := by
  decide

/-- C6: on a well-formed opened image (map entries are sentinel or an
injectively assigned physical index below `blocks_allocated`, the map area
lies below the data area, and the counter cannot reach the sentinel), a
Read issued after a successful Write of `buf` at `sector_num` returns
exactly `buf`. -/
theorem C6_read_after_write (b32 b64 : Nat → Nat) (h32 : ∀ x, b32 (b32 x) = x)
    (h64 : ∀ x, b64 (b64 x) = x) (total : Nat) (host : Host) (s : BDRVVdiState)
    (sn : Nat) (buf : List Sector)
    (hbsec : 0 < s.block_sectors)
    (hlen : total ≤ s.blockmap.length * s.block_sectors)
    (hrange : sn + buf.length ≤ total)
    (hEnt : ∀ i, i < blockCap total s.block_sectors →
        b32 (s.blockmap.getD i 0) = VDI_UNALLOCATED ∨
          b32 (s.blockmap.getD i 0) < s.header.blocks_allocated)
    (hInj : ∀ i, i < blockCap total s.block_sectors →
        ∀ j, j < blockCap total s.block_sectors →
        b32 (s.blockmap.getD i 0) ≠ VDI_UNALLOCATED →
        b32 (s.blockmap.getD i 0) = b32 (s.blockmap.getD j 0) → i = j)
    (hCap : ∀ k, k < s.header.blocks_allocated
          + blockSpan s.block_sectors (sn % s.block_sectors) buf.length →
        mapSecStart s + k / (SECTOR_SIZE / 4) < dataSec s)
    (hBa : s.header.blocks_allocated
        + blockSpan s.block_sectors (sn % s.block_sectors) buf.length ≤ VDI_UNALLOCATED)
    (hnoRead : host.readFails = fun _ _ => false)
    (hZ : (vdi_write b32 b64 total host s (sn : Int) buf).2.2 = 0) :
    vdi_read b32 total (vdi_write b32 b64 total host s (sn : Int) buf).1
        (vdi_write b32 b64 total host s (sn : Int) buf).2.1 (sn : Int) buf.length
      = some buf := by
  rw [vdi_write_natCast] at hZ ⊢
  rw [vdi_read_natCast]
  have Heq : vdi_write_loop b32 b64 total (buf.length + 1) host s sn buf
      = ((vdi_write_loop b32 b64 total (buf.length + 1) host s sn buf).1,
         (vdi_write_loop b32 b64 total (buf.length + 1) host s sn buf).2.1, 0) := by
    rw [← hZ]
  have hsh := vdi_write_loop_shape_eq b32 b64 total (buf.length + 1) host s sn buf _ _ _ Heq
  have hspec := vdi_write_loop_spec b32 b64 h32 h64 total (buf.length + 1) host s sn buf
    _ _ Heq hbsec hlen hrange hEnt (fun i j hi hj => hInj i hi j hj) hCap hBa
  obtain ⟨l, hl⟩ := vdi_read_loop_isSome b32 total (buf.length + 1)
    (vdi_write_loop b32 b64 total (buf.length + 1) host s sn buf).1
    (vdi_write_loop b32 b64 total (buf.length + 1) host s sn buf).2.1 sn buf.length []
    (by rw [hsh.2.2.1, hnoRead]) (by rw [hsh.1]; exact hbsec) (by omega)
  have hval := vdi_read_loop_some b32 total (buf.length + 1) _ _ sn buf.length [] l hl
    (by rw [hsh.1]; exact hbsec) hrange
  rw [hl, hval, List.nil_append]
  rw [List.map_congr_left (fun j hj => hspec.1 j (List.mem_range.mp hj)),
    map_range_getD_self]

/-- C6 witness: on the miniature two-block image, writing `raw 5, raw 6` at
sector 1 (spanning both blocks, both freshly allocated) and reading the two
sectors back returns exactly the written data. -/
theorem C6_read_after_write_witness :
    vdi_read (fun x => x) 4
        (vdi_write (fun x => x) (fun x => x) 4 hostZero stateMini ((1 : Nat) : Int)
          [Sector.raw 5, Sector.raw 6]).1
        (vdi_write (fun x => x) (fun x => x) 4 hostZero stateMini ((1 : Nat) : Int)
          [Sector.raw 5, Sector.raw 6]).2.1 ((1 : Nat) : Int) 2
      = some [Sector.raw 5, Sector.raw 6] :=
  C6_read_after_write (fun x => x) (fun x => x) (fun x => rfl) (fun x => rfl) 4 hostZero
    stateMini 1 [Sector.raw 5, Sector.raw 6] (by decide) (by decide) (by decide) (by decide)
    (by decide) (by decide) (by decide) rfl (by decide)

/-- C7: a Read whose every requested sector lies in a block whose map entry
is the sentinel returns all-zero sectors; the host is arbitrary — in
particular one whose every read fails — so the host file is not consulted
for the range. -/
theorem C7_read_unallocated_zeros (b32 : Nat → Nat) (total : Nat) (host : Host)
    (s : BDRVVdiState) (sn nb : Nat)
    (hbsec : 0 < s.block_sectors) (hrange : sn + nb ≤ total)
    (hAllU : ∀ j, j < nb →
        b32 (s.blockmap.getD ((sn + j) / s.block_sectors) 0) = VDI_UNALLOCATED) :
    vdi_read b32 total host s (sn : Int) nb = some (List.replicate nb Sector.zero) := by
  rw [vdi_read_natCast]
  rw [vdi_read_loop_unalloc b32 total (nb + 1) host s sn nb [] hbsec (by omega) hrange hAllU]
  rw [List.nil_append]

/-- C7 witness: on the fresh 256-block image, reading 3 sectors at sector 0
against a host whose every read fails still succeeds with zero sectors — no
host read happens. -/
theorem C7_read_unallocated_zeros_witness :
    vdi_read (fun x => x) 524288 hostAllReadsFail state256 ((0 : Nat) : Int) 3
      = some (List.replicate 3 Sector.zero) :=
  C7_read_unallocated_zeros (fun x => x) 524288 hostAllReadsFail state256 0 3 (by decide)
    (by decide) (by decide)

/-- C8: `blocks_allocated` never decreases across any sequence of writes;
when the count of non-sentinel map entries equals `blocks_allocated` before
a write, it still does after the write — any write: allocating or not,
successful or failed; and whenever a write does allocate a new block (its
first sector lies in an in-range block whose entry is the sentinel), that
block receives the prior `blocks_allocated` as its physical index. -/
theorem C8_allocation_counter_invariants (b32 b64 : Nat → Nat)
    (h32 : ∀ x, b32 (b32 x) = x) (h64 : ∀ x, b64 (b64 x) = x) (total : Nat)
    (reqs : List (Int × List Sector)) (host : Host) (s : BDRVVdiState)
    (sn : Nat) (buf : List Sector)
    (hbsec : 0 < s.block_sectors)
    (hlen : total ≤ s.blockmap.length * s.block_sectors)
    (hBa : s.header.blocks_allocated
        + blockSpan s.block_sectors (sn % s.block_sectors) buf.length ≤ VDI_UNALLOCATED)
    (hCount : countAlloc b32 s.blockmap = s.header.blocks_allocated) :
    s.header.blocks_allocated
        ≤ (vdi_write_seq b32 b64 total reqs (host, s)).2.header.blocks_allocated ∧
    countAlloc b32 (vdi_write b32 b64 total host s (sn : Int) buf).2.1.blockmap
        = (vdi_write b32 b64 total host s (sn : Int) buf).2.1.header.blocks_allocated ∧
    (buf.length ≠ 0 → sn < total →
      b32 (s.blockmap.getD (sn / s.block_sectors) 0) = VDI_UNALLOCATED →
      (vdi_write b32 b64 total host s (sn : Int) buf).2.1.blockmap.getD
        (sn / s.block_sectors) 0 = b32 s.header.blocks_allocated) := by
  refine ⟨vdi_write_seq_ba_mono b32 b64 h32 h64 total reqs host s, ?_, ?_⟩
  · rw [vdi_write_natCast]
    have Heq : vdi_write_loop b32 b64 total (buf.length + 1) host s sn buf
        = ((vdi_write_loop b32 b64 total (buf.length + 1) host s sn buf).1,
           (vdi_write_loop b32 b64 total (buf.length + 1) host s sn buf).2.1,
           (vdi_write_loop b32 b64 total (buf.length + 1) host s sn buf).2.2) := rfl
    have h := vdi_write_loop_count b32 b64 h32 h64 total (buf.length + 1) host s sn buf
      _ _ _ Heq hbsec hlen hBa
    omega
  · intro hlen0 hsn hU
    rw [vdi_write_natCast]
    have Heq : vdi_write_loop b32 b64 total (buf.length + 1) host s sn buf
        = ((vdi_write_loop b32 b64 total (buf.length + 1) host s sn buf).1,
           (vdi_write_loop b32 b64 total (buf.length + 1) host s sn buf).2.1,
           (vdi_write_loop b32 b64 total (buf.length + 1) host s sn buf).2.2) := rfl
    exact vdi_write_loop_alloc_first b32 b64 total buf.length host s sn buf
      _ _ _ Heq hbsec hlen hlen0 hsn hU

/-- C8 witness: on the miniature image (counter 0, no entry allocated), a
one-sector write at sector 0 keeps the counter-count identity and stores
physical index 0 — the prior counter value — in the map entry; the counter
is monotone across the one-request sequence. -/
theorem C8_allocation_counter_invariants_witness :
    stateMini.header.blocks_allocated
        ≤ (vdi_write_seq (fun x => x) (fun x => x) 4 [((0 : Int), [Sector.raw 9])]
            (hostZero, stateMini)).2.header.blocks_allocated ∧
    countAlloc (fun x => x)
        (vdi_write (fun x => x) (fun x => x) 4 hostZero stateMini ((0 : Nat) : Int)
          [Sector.raw 9]).2.1.blockmap
        = (vdi_write (fun x => x) (fun x => x) 4 hostZero stateMini ((0 : Nat) : Int)
            [Sector.raw 9]).2.1.header.blocks_allocated ∧
    (vdi_write (fun x => x) (fun x => x) 4 hostZero stateMini ((0 : Nat) : Int)
        [Sector.raw 9]).2.1.blockmap.getD (0 / stateMini.block_sectors) 0
      = (fun x => x) stateMini.header.blocks_allocated :=
  let h := C8_allocation_counter_invariants (fun x => x) (fun x => x) (fun x => rfl)
    (fun x => rfl) 4 [((0 : Int), [Sector.raw 9])] hostZero stateMini 0 [Sector.raw 9]
    (by decide) (by decide) (by decide) (by decide)
  ⟨h.1, h.2.1, h.2.2 (by decide) (by decide) (by decide)⟩

/-- C9: `vdi_probe` is two-valued — 0 or 100, never an intermediate score —
and returns 100 exactly when the buffer is at least the header size and the
little-endian signature field equals `VDI_SIGNATURE`. -/
theorem C9_probe_two_valued (buf : List Nat) :
    (vdi_probe buf = 0 ∨ vdi_probe buf = 100) ∧
      (vdi_probe buf = 100 ↔
        sizeof_VdiHeader ≤ buf.length ∧ le32_at buf 64 = VDI_SIGNATURE) := by
  rw [vdi_probe_eq]
  split_ifs with h
  · exact ⟨Or.inr rfl, by simp [h]⟩
  · exact ⟨Or.inl rfl, by simp [h]⟩

/-- C10: the in-memory header stays in host byte order outside the header
write: the header-write step converts to little-endian and back on both the
success and the failure path, and after any `vdi_write` the state's header
equals the original host-order header except for `blocks_allocated`. -/
theorem C10_header_host_order (b32 b64 : Nat → Nat) (h32 : ∀ x, b32 (b32 x) = x)
    (h64 : ∀ x, b64 (b64 x) = x) (total : Nat) (host : Host) (h : VdiHeader)
    (s : BDRVVdiState) (sn : Int) (buf : List Sector) :
    (vdi_write_header_step b32 b64 host h).2.1 = h ∧
    (vdi_write b32 b64 total host s sn buf).2.1.header
      = { s.header with blocks_allocated :=
            (vdi_write b32 b64 total host s sn buf).2.1.header.blocks_allocated } := by
  constructor
  · simp only [vdi_write_header_step]
    split_ifs <;> exact vdi_header_cpu_le b32 b64 h32 h64 h
  · simp only [vdi_write]
    split_ifs with h1
    · rfl
    · have Heq : vdi_write_loop b32 b64 total (buf.length + 1) host s sn.toNat buf
          = ((vdi_write_loop b32 b64 total (buf.length + 1) host s sn.toNat buf).1,
             (vdi_write_loop b32 b64 total (buf.length + 1) host s sn.toNat buf).2.1,
             (vdi_write_loop b32 b64 total (buf.length + 1) host s sn.toNat buf).2.2) := rfl
      exact vdi_write_loop_header_eq b32 b64 h32 h64 total (buf.length + 1) host s
        sn.toNat buf _ _ _ Heq

/-- C10 witness: with identity byte-order converters, the header-write step
returns the original header, and a write on the miniature image changes the
header only in `blocks_allocated`. -/
theorem C10_header_host_order_witness :
    (vdi_write_header_step (fun x => x) (fun x => x) hostZero hdrMini).2.1 = hdrMini ∧
    (vdi_write (fun x => x) (fun x => x) 4 hostZero stateMini (1 : Int)
        [Sector.raw 5]).2.1.header
      = { stateMini.header with blocks_allocated :=
            (vdi_write (fun x => x) (fun x => x) 4 hostZero stateMini (1 : Int)
              [Sector.raw 5]).2.1.header.blocks_allocated } :=
  C10_header_host_order (fun x => x) (fun x => x) (fun x => rfl) (fun x => rfl) 4 hostZero
    hdrMini stateMini (1 : Int) [Sector.raw 5]
end Vdi
